import Mathlib

/-!
# Observable / ObserverList (`include/seqan/journaled_string_tree/observable.h`)

A shallow embedding of the header: the compile-time observer tuple, the
`Observable` wrapper, the metafunctions `LENGTH` and `Element`, the functions
`length`, `setObserver`, `notify`, `makeObserverList`, and the recursive dispatcher
`NotifyObserver`.

Conventions of the embedding.

* A C++ type is a code of an arbitrary type `Ty`; an observer value is an element of
  an arbitrary type `Val`.  A tuple slot is the pair of its static type and its
  current value; its index is its position.
* `unsigned` is 32 bits wide: `LENGTH` and the template argument `LENGTH - 1`
  are computed modulo `2 ^ 32`.
* A construct that the compiler rejects (a failing `static_assert`, a failed
  template argument deduction, a `std::get` beyond the end, a missing
  definition) yields `none` / `Outcome.illFormed`: no code of it runs.
* A C++ exception is the completion `Completion.raised e`; the state reached
  when it was raised is kept.
* The observers' own `notify(observer, tag)` overloads, the assignment
  operators of the observer types and the default constructor of a tag type
  are not part of the header; they are parameters (`handler`, `assignable`,
  `construct`).
* References are modelled where they decide the behaviour: the caller's objects
  live in a `Store`, and a tuple element (`TupleElement`) is either a reference to an
  object or a value of its own.  `makeObserverList` builds such elements; the
  dispatcher runs on them through `Handler.onElements`, and `setObserver.onElements`
  assigns through them.
-/

namespace seqan

/-! ## Data model -/

/-- Number of values of the C++ type `unsigned`. -/
def UNSIGNED_RANGE : Nat := 2 ^ 32

/-- Subtraction `a - b` on `unsigned` operands (wraps around below zero). -/
def usub (a b : Nat) : Nat := (a % UNSIGNED_RANGE + UNSIGNED_RANGE - b % UNSIGNED_RANGE) % UNSIGNED_RANGE

/-- One element of the observer tuple: its static type and the value it holds. -/
structure Slot (Ty Val : Type) where
  type : Ty
  value : Val

/-- The alias `ObserverList<TObservers...>` of `std::tuple<TObservers...>`: the slots in
declaration order.  The arity of a tuple type is representable in `unsigned`
(`LENGTH<...>::VALUE` is declared `unsigned`). -/
structure ObserverList (Ty Val : Type) where
  slots : List (Slot Ty Val)
  arity_fits : slots.length < UNSIGNED_RANGE

/-- The template arguments `TObservers...` of an observer list. -/
def ObserverList.types {Ty Val : Type} (l : ObserverList Ty Val) : List Ty :=
  l.slots.map Slot.type

/-- The empty tuple `ObserverList<>`. -/
def ObserverList.empty {Ty Val : Type} : ObserverList Ty Val :=
  ⟨[], by simp [UNSIGNED_RANGE]⟩

/-- Assignment through `std::get<INDEX>(list) = v`-style access: the slot keeps its
type and takes the new value; the arity is unchanged. -/
def ObserverList.setValue {Ty Val : Type} (l : ObserverList Ty Val) (INDEX : Nat) (v : Val) :
    ObserverList Ty Val :=
  ⟨l.slots.modify (fun s => ⟨s.type, v⟩) INDEX, by
    rw [List.length_modify]; exact l.arity_fits⟩

/-- The class `Observable<ObserverList<TObservers...> >` with its single member
`observers`.  The specialisation for `ObserverList<>` is the empty class: it is
the value whose list has no slot. -/
structure Observable (Ty Val : Type) where
  observers : ObserverList Ty Val

/-- The constructor `Observable(TObserverList const & list)` (and its rvalue twin):
the member is initialised from the list. -/
def Observable.fromList {Ty Val : Type} (list : ObserverList Ty Val) : Observable Ty Val :=
  ⟨list⟩

/-- An event tag object: its tag type and whatever state an object of that type has. -/
structure EventTag (TagTy D : Type) where
  type : TagTy
  data : D

/-- Whether an argument expression is a named variable or a temporary. -/
inductive ValueCategory where
  | lvalue
  | rvalue
  deriving DecidableEq, Repr

/-- The argument `observer` of a `setObserver` call: static type, value, category. -/
structure ObserverArg (Ty Val : Type) where
  type : Ty
  value : Val
  category : ValueCategory

/-- How a call that ran came to its end. -/
inductive Completion (ε : Type) where
  | normal
  | raised (e : ε)
  deriving DecidableEq, Repr

/-- Result of a call expression: rejected at build time, or run to a state. -/
inductive Outcome (σ ε : Type) where
  | illFormed
  | ran (state : σ) (how : Completion ε)

/-- What an observer's own `notify(observer, tag)` leaves: the observer's value,
the rest of the program state, and how the call ended. -/
structure HandlerResult (Val W ε : Type) where
  value : Val
  world : W
  how : Completion ε

/-- The observer notification capability `notify(observer, tag)`, selected by the
observer's static type and the tag. -/
abbrev Handler (Ty Val TagTy D W ε : Type) : Type :=
  Ty → EventTag TagTy D → Val → W → HandlerResult Val W ε

/-- One executed call `notify(std::get<INDEX>(subject), TTag())`. -/
structure Call (Ty Val TagTy D : Type) where
  index : Nat
  observer : Slot Ty Val
  tag : EventTag TagTy D

/-- The object an argument expression `subject` denotes. -/
inductive Subject (Ty Val : Type) where
  | list (l : ObserverList Ty Val)
  | observable (o : Observable Ty Val)

/-- Program state around a dispatch: the subject, everything else the handlers
can reach, and the calls made so far (oldest first). -/
structure State (Ty Val TagTy D W : Type) where
  subject : Subject Ty Val
  world : W
  calls : List (Call Ty Val TagTy D)

/-! ## Metafunctions -/

/-- The metafunction `LENGTH<ObserverList<TObservers...> >::VALUE`, that is
`sizeof...(TObservers)` stored in an `unsigned`. -/
def LENGTH {Ty : Type} (TObservers : List Ty) : Nat :=
  TObservers.length % UNSIGNED_RANGE

/-- The metafunction `Element<INDEX, ObserverList<...> >::Type`.  The primary
template is only declared, so the empty list has no `Type`; the general
specialisation asserts `INDEX < LENGTH` and recurses on `INDEX - 1`; the
specialisation for `0` yields `TFirst`. -/
def Element {Ty : Type} : Nat → List Ty → Option Ty
  | _, [] => none
  | 0, TFirst :: _ => some TFirst
  | INDEX + 1, TFirst :: TObservers =>
    if INDEX + 1 < LENGTH (TFirst :: TObservers) then Element INDEX TObservers else none

/-! ## NotifyObserver -/

section Dispatch

variable {Ty Val TagTy D W ε : Type}

/-- The expression `TTag()`: a fresh object of the tag type. -/
def EventTag.fresh (construct : TagTy → D) (TTag : TagTy) : EventTag TagTy D :=
  ⟨TTag, construct TTag⟩

/-- The statement `notify(std::get<INDEX>(subject), TTag());` on a tuple: `std::get`
is rejected beyond the end; otherwise the slot's handler runs on the slot (by
reference) with a fresh tag, and the slot holds afterwards the content the
handler returns for it.  For a slot that is a reference (`Handler.onElements`) that
content is the same reference, and the object referred to changes in the
state. -/
def NotifyObserver.invoke (handler : Handler Ty Val TagTy D W ε) (construct : TagTy → D)
    (INDEX : Nat) (TTag : TagTy) (subject : ObserverList Ty Val) (world : W)
    (calls : List (Call Ty Val TagTy D)) : Outcome (State Ty Val TagTy D W) ε :=
  match subject.slots[INDEX]? with
  | none => .illFormed
  | some obs =>
    let r := handler obs.type (EventTag.fresh construct TTag) obs.value world
    .ran ⟨.list (subject.setValue INDEX r.value), r.world,
          calls ++ [⟨INDEX, obs, EventTag.fresh construct TTag⟩]⟩ r.how

/-- The bodies of `NotifyObserver<INDEX>::operator()` once `subject` is bound to a
tuple: the specialisation for `0` makes one call; the general template calls
slot `INDEX` and, when that call returns, `NotifyObserver<INDEX - 1>` on the same
tuple (an exception leaves the body at once).  The general template is only
reached with `INDEX ≥ 1`, where the `unsigned` difference `INDEX - 1` is the
predecessor (`usub_succ_one`). -/
def NotifyObserver.body (handler : Handler Ty Val TagTy D W ε) (construct : TagTy → D) :
    Nat → TagTy → ObserverList Ty Val → W → List (Call Ty Val TagTy D) →
      Outcome (State Ty Val TagTy D W) ε
  | 0, TTag, subject, world, calls =>
    NotifyObserver.invoke handler construct 0 TTag subject world calls
  | INDEX + 1, TTag, subject, world, calls =>
    match NotifyObserver.invoke handler construct (INDEX + 1) TTag subject world calls with
    | .ran ⟨.list subject1, world1, calls1⟩ .normal =>
      NotifyObserver.body handler construct INDEX TTag subject1 world1 calls1
    | other => other

/-- Template argument deduction for the parameter `ObserverList<TObserver...> & subject`:
only a tuple matches; an `Observable` is not a tuple and derives from none. -/
def NotifyObserver.deduce : Subject Ty Val → Option (ObserverList Ty Val)
  | .list l => some l
  | .observable _ => none

/-- The call `NotifyObserver<INDEX>{}(subject, TTag())`. -/
def NotifyObserver (handler : Handler Ty Val TagTy D W ε) (construct : TagTy → D)
    (INDEX : Nat) (TTag : TagTy) (st : State Ty Val TagTy D W) :
    Outcome (State Ty Val TagTy D W) ε :=
  match NotifyObserver.deduce st.subject with
  | none => .illFormed
  | some subject => NotifyObserver.body handler construct INDEX TTag subject st.world st.calls

end Dispatch

/-! ## Functions -/

section Functions

variable {Ty Val TagTy D W ε : Type}

/-- The function `length(Observable<TObserverList> const &)`. -/
def length (subject : Observable Ty Val) : Nat :=
  LENGTH subject.observers.types

/-- The two overloads of `setObserver`. -/
inductive SetObserverOverload where
  | emptyNoOp
  | general
  deriving DecidableEq, Repr

/-- Overload resolution for `setObserver<INDEX>(subject, observer)`.  The first
overload takes `Observable<ObserverList<> > &` and `TObserver &`: it needs the empty
Observable and does not take a temporary.  The second takes any Observable and a
forwarding reference.  Where both are viable the first is more specialised. -/
def setObserver.resolve (subject : Observable Ty Val) (observer : ObserverArg Ty Val) :
    SetObserverOverload :=
  match subject.observers.slots, observer.category with
  | [], .lvalue => .emptyNoOp
  | [], .rvalue => .general
  | _ :: _, _ => .general

/-- The general overload of `setObserver`: `static_assert(INDEX < LENGTH)`, then
`std::get<INDEX>(subject.observers) = std::forward<TObserver>(observer)`, for slots that
hold their own value: the slot takes the argument's value.  For slots that may
be references see `setObserver.onElements`. -/
def setObserver.general (assignable : Ty → Ty → Bool) (INDEX : Nat)
    (subject : Observable Ty Val) (observer : ObserverArg Ty Val) : Option (Observable Ty Val) :=
  if INDEX < LENGTH subject.observers.types then
    match subject.observers.slots[INDEX]? with
    | none => none
    | some s =>
      if assignable s.type observer.type then
        some ⟨subject.observers.setValue INDEX observer.value⟩
      else none
  else none

/-- The function `setObserver<INDEX>(subject, observer)`; `none` when the call is
rejected at build time. -/
def setObserver (assignable : Ty → Ty → Bool) (INDEX : Nat)
    (subject : Observable Ty Val) (observer : ObserverArg Ty Val) : Option (Observable Ty Val) :=
  match setObserver.resolve subject observer with
  | .emptyNoOp => some subject
  | .general => setObserver.general assignable INDEX subject observer

/-- The function `notify(subject, tag)` with its four overloads: a no-op on
`ObserverList<>` and on `Observable<ObserverList<> >`; otherwise
`NotifyObserver<LENGTH - 1>{}(subject, TEventTag())`, where `subject` is the
argument itself, tuple or Observable. -/
def notify (handler : Handler Ty Val TagTy D W ε) (construct : TagTy → D)
    (subject : Subject Ty Val) (tag : EventTag TagTy D) (world : W) :
    Outcome (State Ty Val TagTy D W) ε :=
  match subject with
  | .list l =>
    match l.slots with
    | [] => .ran ⟨subject, world, []⟩ .normal
    | _ :: _ => NotifyObserver handler construct (usub (LENGTH l.types) 1) tag.type ⟨subject, world, []⟩
  | .observable o =>
    match o.observers.slots with
    | [] => .ran ⟨subject, world, []⟩ .normal
    | _ :: _ =>
      NotifyObserver handler construct (usub (LENGTH o.observers.types) 1) tag.type
        ⟨subject, world, []⟩

/-- A run of `setObserver` calls on one Observable, in program order; `none` when
one of them is rejected at build time. -/
def setObserverCalls (assignable : Ty → Ty → Bool) :
    List (Nat × ObserverArg Ty Val) → Observable Ty Val → Option (Observable Ty Val)
  | [], subject => some subject
  | (INDEX, observer) :: rest, subject =>
    match setObserver assignable INDEX subject observer with
    | none => none
    | some subject1 => setObserverCalls assignable rest subject1

end Functions

/-! ## Observation of a dispatch -/

section Observation

variable {Ty Val TagTy D W ε : Type}

/-- The tuple a subject expression gives access to: the tuple itself, or the
member `observers` of an Observable. -/
def Subject.observers : Subject Ty Val → ObserverList Ty Val
  | .list l => l
  | .observable o => o.observers

/-- The state transformer of one slot: the state that the slot's handler, called
with `TTag()`, leaves when it is entered in state `w`. -/
def NotifyObserver.transform (handler : Handler Ty Val TagTy D W ε) (construct : TagTy → D)
    (TTag : TagTy) (s : Slot Ty Val) (w : W) : W :=
  (handler s.type (EventTag.fresh construct TTag) s.value w).world

/-- The handler `handler` observed from outside: it acts as `handler` on the first
component of the state and appends the state it was entered with to a log kept
in the second component. -/
def Handler.observing (handler : Handler Ty Val TagTy D W ε) :
    Handler Ty Val TagTy D (W × List W) ε :=
  fun T tag v wl =>
    ⟨(handler T tag v wl.1).value, ((handler T tag v wl.1).world, wl.2 ++ [wl.1]),
      (handler T tag v wl.1).how⟩

end Observation

/-! ## makeObserverList -/

section MakeObserverList

variable {Val : Type}

/-- The caller's objects: the value held at each location. -/
abbrev Store (Val : Type) : Type := Nat → Val

/-- The assignment `x = v` to the object at `loc`. -/
def Store.assign (store : Store Val) (loc : Nat) (v : Val) : Store Val :=
  fun x => if x = loc then v else store x

/-- An argument expression of `makeObserverList`: the object it denotes and whether
the expression is an lvalue (a named variable) or an rvalue (a temporary, or
`std::move` of a variable). -/
structure ObjectArg where
  loc : Nat
  category : ValueCategory
  deriving DecidableEq, Repr

/-- An element of the tuple `ObserverList<TObservers...>` that `makeObserverList`
returns.  For the parameter `TObservers &&` an lvalue argument deduces `TObservers` as
`T &`, an element that is a reference; an rvalue argument deduces `T`, an element
that holds its own value. -/
inductive TupleElement (Val : Type) where
  | reference (loc : Nat)
  | value (v : Val)

/-- The function `makeObserverList(observers...)`: `std::forward_as_tuple(observers...)`
refers to every argument object, and the conversion to the return type
`ObserverList<TObservers...>` binds each reference element to its object and
copy-constructs each value element from its object. -/
def makeObserverList (store : Store Val) (observers : List ObjectArg) :
    List (TupleElement Val) :=
  observers.map fun a =>
    match a.category with
    | .lvalue => .reference a.loc
    | .rvalue => .value (store a.loc)

/-- Reading a tuple element: a reference element reads its object. -/
def TupleElement.read (store : Store Val) : TupleElement Val → Val
  | .reference loc => store loc
  | .value v => v

/-- The assignment `std::get<INDEX>(list) = v`: through a reference element it
assigns to the object referred to, otherwise to the element itself; `none`
when `INDEX` is beyond the end. -/
def assignElement (store : Store Val) (list : List (TupleElement Val)) (INDEX : Nat) (v : Val) :
    Option (Store Val × List (TupleElement Val)) :=
  match list[INDEX]? with
  | none => none
  | some (.reference loc) => some (store.assign loc v, list)
  | some (.value _) => some (store, list.set INDEX (.value v))

/-- Element `INDEX` of `list` is an alias of the object at `loc`: an assignment through
the element is an assignment to the object, and whatever the object holds is
what the element reads. -/
def IsAliasOf (list : List (TupleElement Val)) (INDEX loc : Nat) : Prop :=
  (∀ (store : Store Val) (v : Val),
    (assignElement store list INDEX v).map (fun r => r.1 loc) = some v) ∧
  (∀ store : Store Val, (list[INDEX]?).map (TupleElement.read store) = some (store loc))

end MakeObserverList

/-! ## Tuples with reference elements

`ObserverList`, `NotifyObserver` and `notify` above take any type of slot content.
With `TupleElement` as the content a slot is a reference or a value of its own, as
in a tuple from `makeObserverList`; the caller's objects are then part of the
state the handlers act on. -/

section Elements

variable {Ty V TagTy D W ε : Type}

/-- Two tuple elements share an object: both are references to one object. -/
def TupleElement.sharesObject : TupleElement V → TupleElement V → Bool
  | .reference a, .reference b => decide (a = b)
  | _, _ => false

/-- The call `notify(std::get<INDEX>(subject), TTag())` when the tuple element may be
a reference: the observer's handler acts on the object referred to, which stays
where it is, or on the element's own value.  The element itself is not rebound. -/
def Handler.onElements (handler : Handler Ty V TagTy D W ε) :
    Handler Ty (TupleElement V) TagTy D (Store V × W) ε :=
  fun T tag e sw =>
    match e with
    | .reference loc =>
      ⟨.reference loc,
        (sw.1.assign loc (handler T tag (sw.1 loc) sw.2).value,
          (handler T tag (sw.1 loc) sw.2).world),
        (handler T tag (sw.1 loc) sw.2).how⟩
    | .value v =>
      ⟨.value (handler T tag v sw.2).value, (sw.1, (handler T tag v sw.2).world),
        (handler T tag v sw.2).how⟩

/-- What slot `INDEX` of a tuple holds, read in the given store. -/
def ObserverList.readSlot (store : Store V) (l : ObserverList Ty (TupleElement V))
    (INDEX : Nat) : Option V :=
  (l.slots[INDEX]?).map fun s => s.value.read store

/-- The object an argument expression of `setObserver` denotes: a temporary, one of
the caller's objects, or the object that slot `j` of the Observable itself
holds or refers to (`std::get<j>(subject.observers)`). -/
inductive ArgObject (V : Type) where
  | temporary (v : V)
  | object (loc : Nat)
  | slot (j : Nat)

/-- The argument `observer` of a `setObserver` call on an Observable whose slots may be
references: static type, value category, and the object denoted. -/
structure ElementArg (Ty V : Type) where
  type : Ty
  category : ValueCategory
  object : ArgObject V

/-- The value the argument holds when the call is made; `none` when it names a slot
beyond the end. -/
def ElementArg.value (store : Store V) (subject : Observable Ty (TupleElement V))
    (observer : ElementArg Ty V) : Option V :=
  match observer.object with
  | .temporary v => some v
  | .object loc => some (store loc)
  | .slot j => subject.observers.readSlot store j

/-- What `std::forward<TObserver>(observer)` does to the argument's object: an lvalue is
copied from and keeps its value; an rvalue is moved from and is left holding
`movedFrom` of its value. -/
def ElementArg.moveOut (movedFrom : Ty → V → V) (store : Store V)
    (subject : Observable Ty (TupleElement V)) (observer : ElementArg Ty V) :
    Store V × Observable Ty (TupleElement V) :=
  match observer.category with
  | .lvalue => (store, subject)
  | .rvalue =>
    match observer.object with
    | .temporary _ => (store, subject)
    | .object loc => (store.assign loc (movedFrom observer.type (store loc)), subject)
    | .slot j =>
      match (subject.observers.slots[j]?).map Slot.value with
      | none => (store, subject)
      | some (.reference loc) =>
        (store.assign loc (movedFrom observer.type (store loc)), subject)
      | some (.value v) =>
        (store, ⟨subject.observers.setValue j (.value (movedFrom observer.type v))⟩)

/-- The argument is an rvalue that denotes the object slot `j` holds or refers to. -/
def ElementArg.movesFrom (subject : Observable Ty (TupleElement V))
    (observer : ElementArg Ty V) (j : Nat) : Bool :=
  match observer.category, observer.object, (subject.observers.slots[j]?).map Slot.value with
  | .rvalue, .object loc, some (.reference loc1) => decide (loc = loc1)
  | .rvalue, .slot k, some (.reference loc1) =>
    match (subject.observers.slots[k]?).map Slot.value with
    | some (.reference loc) => decide (loc = loc1)
    | _ => false
  | .rvalue, .slot k, some (.value _) =>
    match (subject.observers.slots[k]?).map Slot.value with
    | some (.value _) => decide (k = j)
    | _ => false
  | _, _, _ => false

/-- The general overload of `setObserver` on an Observable whose tuple elements may
be references: `static_assert(INDEX < LENGTH)`, then the assignment
`std::get<INDEX>(subject.observers) = std::forward<TObserver>(observer)`.  The assignment
takes the argument's value, leaves an rvalue argument moved from, and assigns
through a reference element to the object referred to and otherwise to the
element's own value. -/
def setObserver.onElements (assignable : Ty → Ty → Bool) (movedFrom : Ty → V → V)
    (INDEX : Nat) (store : Store V) (subject : Observable Ty (TupleElement V))
    (observer : ElementArg Ty V) : Option (Store V × Observable Ty (TupleElement V)) :=
  if INDEX < LENGTH subject.observers.types then
    match subject.observers.slots[INDEX]? with
    | none => none
    | some s =>
      if assignable s.type observer.type then
        match ElementArg.value store subject observer with
        | none => none
        | some v =>
          match s.value with
          | .reference loc =>
            some ((ElementArg.moveOut movedFrom store subject observer).1.assign loc v,
              (ElementArg.moveOut movedFrom store subject observer).2)
          | .value _ =>
            some ((ElementArg.moveOut movedFrom store subject observer).1,
              ⟨(ElementArg.moveOut movedFrom store subject observer).2.observers.setValue
                INDEX (.value v)⟩)
      else none
  else none

end Elements

/-! ## A concrete scenario: observers that record their identity -/

namespace Scenario

/-- Identities of the recording observers. -/
inductive Ident where
  | A
  | B
  | C
  | X
  deriving DecidableEq, Repr

/-- Observer types of the scenario: a recorder, and an observer whose handler
throws. -/
inductive ObsTy where
  | recorder
  | thrower
  deriving DecidableEq, Repr

/-- Handler of the scenario: a recorder appends its identity to the record; a
thrower raises its identity and records nothing. -/
def handler : Handler ObsTy Ident Unit Unit (List Ident) Ident :=
  fun T _ v w =>
    match T with
    | .recorder => ⟨v, w ++ [v], .normal⟩
    | .thrower => ⟨v, w, .raised v⟩

/-- Tag construction of the scenario: tags carry no state. -/
def construct : Unit → Unit := fun _ => ()

/-- Assignment of the scenario: a slot takes values of its own type only. -/
def assignable : ObsTy → ObsTy → Bool := fun T U => decide (T = U)

/-- The tuple of recorders A, B, C, built in that order. -/
def abc : ObserverList ObsTy Ident :=
  ⟨[⟨.recorder, .A⟩, ⟨.recorder, .B⟩, ⟨.recorder, .C⟩], by decide⟩

/-- The tuple A, B, C where B is a thrower. -/
def aTc : ObserverList ObsTy Ident :=
  ⟨[⟨.recorder, .A⟩, ⟨.thrower, .B⟩, ⟨.recorder, .C⟩], by decide⟩

/-- The event tag of the scenario. -/
def tag : EventTag Unit Unit := ⟨(), ()⟩

/-- The caller's objects of the scenario: every location holds A. -/
def store : Store Ident := fun _ => .A

/-- A handler that looks at the tag object it is given: it records the observer
when the tag holds `0` and throws otherwise. -/
def tagReader : Handler ObsTy Ident Unit Nat (List Ident) Ident :=
  fun _ t v w => if t.data = 0 then ⟨v, w ++ [v], .normal⟩ else ⟨v, w, .raised v⟩

/-- Default construction of the tag read by `tagReader`: it holds `0`. -/
def constructZero : Unit → Nat := fun _ => 0

/-- A moved-from observer of the scenario holds X. -/
def movedFrom : ObsTy → Ident → Ident := fun _ _ => .X

/-- The tuple `makeObserverList(a, a)` for the caller's variable `a` (object 0). -/
def aa : ObserverList ObsTy (TupleElement Ident) :=
  ⟨List.zipWith Slot.mk [.recorder, .recorder]
    (makeObserverList store [⟨0, .lvalue⟩, ⟨0, .lvalue⟩]), by decide⟩

/-- The tuple `makeObserverList(a, B(), c)`: slot 0 refers to object 0, slot 1 owns a
copy of the temporary at object 1, slot 2 refers to object 2. -/
def aBc : ObserverList ObsTy (TupleElement Ident) :=
  ⟨List.zipWith Slot.mk [.recorder, .recorder, .recorder]
    (makeObserverList store [⟨0, .lvalue⟩, ⟨1, .rvalue⟩, ⟨2, .lvalue⟩]), by decide⟩

end Scenario

/-! ## Basic facts about the embedding -/

section Lemmas

variable {Ty Val TagTy D W ε : Type}

theorem ObserverList.setValue_length (l : ObserverList Ty Val) (INDEX : Nat) (v : Val) :
    (l.setValue INDEX v).slots.length = l.slots.length := by
  simp [ObserverList.setValue]

theorem ObserverList.setValue_getElem?_ne (l : ObserverList Ty Val) (INDEX i : Nat) (v : Val)
    (h : INDEX ≠ i) : (l.setValue INDEX v).slots[i]? = l.slots[i]? := by
  simp only [ObserverList.setValue, List.getElem?_modify, if_neg h]
  cases l.slots[i]? <;> rfl

theorem ObserverList.setValue_getElem?_self (l : ObserverList Ty Val) (INDEX : Nat) (v : Val)
    (s : Slot Ty Val) (h : l.slots[INDEX]? = some s) :
    (l.setValue INDEX v).slots[INDEX]? = some ⟨s.type, v⟩ := by
  simp [ObserverList.setValue, List.getElem?_modify, h]

theorem ObserverList.setValue_types (l : ObserverList Ty Val) (INDEX : Nat) (v : Val) :
    (l.setValue INDEX v).types = l.types := by
  apply List.ext_getElem?
  intro i
  simp only [ObserverList.types, ObserverList.setValue, List.getElem?_map, List.getElem?_modify]
  cases l.slots[i]? with
  | none => rfl
  | some s => by_cases h : INDEX = i <;> simp [h]

theorem LENGTH_types (l : ObserverList Ty Val) : LENGTH l.types = l.slots.length := by
  have h := l.arity_fits
  simp only [LENGTH, ObserverList.types, List.length_map]
  exact Nat.mod_eq_of_lt h

theorem usub_LENGTH_one (l : ObserverList Ty Val) (h : 1 ≤ l.slots.length) :
    usub (LENGTH l.types) 1 = l.slots.length - 1 := by
  have hfit := l.arity_fits
  rw [LENGTH_types]
  simp only [usub, UNSIGNED_RANGE] at *
  omega

theorem usub_succ_one (INDEX : Nat) (h : INDEX + 1 < UNSIGNED_RANGE) :
    usub (INDEX + 1) 1 = INDEX := by
  simp only [usub, UNSIGNED_RANGE] at *
  omega

theorem NotifyObserver.invoke_eq (handler : Handler Ty Val TagTy D W ε) (construct : TagTy → D)
    (INDEX : Nat) (TTag : TagTy) (subject : ObserverList Ty Val) (world : W)
    (calls : List (Call Ty Val TagTy D)) (s : Slot Ty Val) (h : subject.slots[INDEX]? = some s) :
    NotifyObserver.invoke handler construct INDEX TTag subject world calls =
      .ran ⟨.list (subject.setValue INDEX
              (handler s.type (EventTag.fresh construct TTag) s.value world).value),
            (handler s.type (EventTag.fresh construct TTag) s.value world).world,
            calls ++ [⟨INDEX, s, EventTag.fresh construct TTag⟩]⟩
        (handler s.type (EventTag.fresh construct TTag) s.value world).how := by
  simp [NotifyObserver.invoke, h]

theorem NotifyObserver.body_succ_normal (handler : Handler Ty Val TagTy D W ε)
    (construct : TagTy → D) (INDEX : Nat) (TTag : TagTy) (subject : ObserverList Ty Val)
    (world : W) (calls : List (Call Ty Val TagTy D)) (s : Slot Ty Val)
    (h : subject.slots[INDEX + 1]? = some s)
    (hn : (handler s.type (EventTag.fresh construct TTag) s.value world).how = .normal) :
    NotifyObserver.body handler construct (INDEX + 1) TTag subject world calls =
      NotifyObserver.body handler construct INDEX TTag
        (subject.setValue (INDEX + 1)
          (handler s.type (EventTag.fresh construct TTag) s.value world).value)
        (handler s.type (EventTag.fresh construct TTag) s.value world).world
        (calls ++ [⟨INDEX + 1, s, EventTag.fresh construct TTag⟩]) := by
  rw [NotifyObserver.body, NotifyObserver.invoke_eq handler construct _ _ _ _ _ s h, hn]

theorem NotifyObserver.body_raised (handler : Handler Ty Val TagTy D W ε)
    (construct : TagTy → D) (INDEX : Nat) (TTag : TagTy) (subject : ObserverList Ty Val)
    (world : W) (calls : List (Call Ty Val TagTy D)) (s : Slot Ty Val) (e : ε)
    (h : subject.slots[INDEX]? = some s)
    (hr : (handler s.type (EventTag.fresh construct TTag) s.value world).how = .raised e) :
    NotifyObserver.body handler construct INDEX TTag subject world calls =
      .ran ⟨.list (subject.setValue INDEX
              (handler s.type (EventTag.fresh construct TTag) s.value world).value),
            (handler s.type (EventTag.fresh construct TTag) s.value world).world,
            calls ++ [⟨INDEX, s, EventTag.fresh construct TTag⟩]⟩ (.raised e) := by
  cases INDEX with
  | zero => rw [NotifyObserver.body, NotifyObserver.invoke_eq handler construct _ _ _ _ _ s h, hr]
  | succ n => rw [NotifyObserver.body, NotifyObserver.invoke_eq handler construct _ _ _ _ _ s h, hr]

theorem NotifyObserver.body_zero_normal (handler : Handler Ty Val TagTy D W ε)
    (construct : TagTy → D) (TTag : TagTy) (subject : ObserverList Ty Val)
    (world : W) (calls : List (Call Ty Val TagTy D)) (s : Slot Ty Val)
    (h : subject.slots[0]? = some s)
    (hn : (handler s.type (EventTag.fresh construct TTag) s.value world).how = .normal) :
    NotifyObserver.body handler construct 0 TTag subject world calls =
      .ran ⟨.list (subject.setValue 0
              (handler s.type (EventTag.fresh construct TTag) s.value world).value),
            (handler s.type (EventTag.fresh construct TTag) s.value world).world,
            calls ++ [⟨0, s, EventTag.fresh construct TTag⟩]⟩ .normal := by
  rw [NotifyObserver.body, NotifyObserver.invoke_eq handler construct _ _ _ _ _ s h, hn]

/-- Running `NotifyObserver<j + d>` on a tuple whose handlers at the indices
`j + 1 .. j + d` complete makes exactly the calls `j + d, ..., j + 1`, each on the
slot the caller supplied, and arrives at `NotifyObserver<j>` on a tuple that agrees
with the original one at the indices `0 .. j`. -/
theorem NotifyObserver.body_descent (handler : Handler Ty Val TagTy D W ε)
    (construct : TagTy → D) (TTag : TagTy) (j : Nat) :
    ∀ (d : Nat) (subject : ObserverList Ty Val) (world : W)
      (calls : List (Call Ty Val TagTy D)),
      j + d < subject.slots.length →
      (∀ i s, j < i → i ≤ j + d → subject.slots[i]? = some s →
        ∀ w, (handler s.type (EventTag.fresh construct TTag) s.value w).how = .normal) →
      ∃ (subject1 : ObserverList Ty Val) (world1 : W) (new : List (Call Ty Val TagTy D)),
        NotifyObserver.body handler construct (j + d) TTag subject world calls =
          NotifyObserver.body handler construct j TTag subject1 world1 (calls ++ new) ∧
        new.map Call.index = (List.range' (j + 1) d).reverse ∧
        (∀ c ∈ new, subject.slots[c.index]? = some c.observer ∧
          c.tag = EventTag.fresh construct TTag) ∧
        subject1.slots.length = subject.slots.length ∧
        (∀ i, i ≤ j → subject1.slots[i]? = subject.slots[i]?) := by
  intro d
  induction d with
  | zero =>
    intro subject world calls _ _
    exact ⟨subject, world, [], by simp, by simp, by simp, rfl, fun _ _ => rfl⟩
  | succ d ih =>
    intro subject world calls hlen hnormal
    have hlt : j + d + 1 < subject.slots.length := by omega
    have hs : subject.slots[j + d + 1]? = some (subject.slots[j + d + 1]) :=
      List.getElem?_eq_getElem hlt
    generalize subject.slots[j + d + 1] = s at hs
    have hn := hnormal (j + d + 1) s (by omega) (by omega) hs world
    have hstep := NotifyObserver.body_succ_normal handler construct (j + d) TTag subject world
      calls s hs hn
    obtain ⟨subject1, world1, new, hrun, hidx, hobs, hlen1, hagree⟩ :=
      ih (subject.setValue (j + d + 1)
            (handler s.type (EventTag.fresh construct TTag) s.value world).value)
        (handler s.type (EventTag.fresh construct TTag) s.value world).world
        (calls ++ [⟨j + d + 1, s, EventTag.fresh construct TTag⟩])
        (by rw [ObserverList.setValue_length]; omega)
        (by
          intro i s1 hji hij hget w
          rw [ObserverList.setValue_getElem?_ne _ _ _ _ (by omega)] at hget
          exact hnormal i s1 hji (by omega) hget w)
    refine ⟨subject1, world1, ⟨j + d + 1, s, EventTag.fresh construct TTag⟩ :: new, ?_, ?_, ?_,
      ?_, ?_⟩
    · rw [show j + (d + 1) = j + d + 1 from rfl, hstep, hrun, List.append_assoc]
      rfl
    · rw [List.map_cons, hidx, List.range'_concat, List.reverse_append]
      simp
      omega
    · intro c hc
      rcases List.mem_cons.mp hc with rfl | hc
      · exact ⟨hs, rfl⟩
      · have hmem : c.index ∈ new.map Call.index := List.mem_map_of_mem _ hc
        rw [hidx, List.mem_reverse, List.mem_range'_1] at hmem
        have := hobs c hc
        rw [ObserverList.setValue_getElem?_ne _ _ _ _ (by omega)] at this
        exact this
    · rw [hlen1, ObserverList.setValue_length]
    · intro i hi
      rw [hagree i hi, ObserverList.setValue_getElem?_ne _ _ _ _ (by omega)]

theorem notify_list_eq_body (handler : Handler Ty Val TagTy D W ε) (construct : TagTy → D)
    (l : ObserverList Ty Val) (tag : EventTag TagTy D) (world : W)
    (hk : 1 ≤ l.slots.length) :
    notify handler construct (.list l) tag world =
      NotifyObserver.body handler construct (l.slots.length - 1) tag.type l world [] := by
  have hsub := usub_LENGTH_one l hk
  unfold notify
  cases hl : l.slots with
  | nil => rw [hl] at hk; simp at hk
  | cons s rest =>
    simp only [NotifyObserver, NotifyObserver.deduce]
    rw [hsub, hl]

theorem notify_observable_illFormed (handler : Handler Ty Val TagTy D W ε)
    (construct : TagTy → D) (o : Observable Ty Val) (tag : EventTag TagTy D) (world : W)
    (hk : 1 ≤ o.observers.slots.length) :
    notify handler construct (.observable o) tag world = .illFormed := by
  unfold notify
  cases hl : o.observers.slots with
  | nil => rw [hl] at hk; simp at hk
  | cons s rest =>
    simp only [NotifyObserver, NotifyObserver.deduce]
    rw [hl]

theorem ObserverList.slots_eq_nil_of_LENGTH (l : ObserverList Ty Val)
    (h : LENGTH l.types = 0) : l.slots = [] := by
  rw [LENGTH_types] at h
  exact List.length_eq_zero.mp h

theorem setObserver_of_nonempty (assignable : Ty → Ty → Bool) (INDEX : Nat)
    (subject : Observable Ty Val) (observer : ObserverArg Ty Val)
    (hN : 1 ≤ subject.observers.slots.length) :
    setObserver assignable INDEX subject observer =
      setObserver.general assignable INDEX subject observer := by
  unfold setObserver setObserver.resolve
  cases hl : subject.observers.slots with
  | nil => rw [hl] at hN; simp at hN
  | cons s rest => rfl

theorem setObserver.general_of_lt (assignable : Ty → Ty → Bool) (INDEX : Nat)
    (subject : Observable Ty Val) (observer : ObserverArg Ty Val)
    (hi : INDEX < subject.observers.slots.length) :
    setObserver.general assignable INDEX subject observer =
      if assignable (subject.observers.slots[INDEX]).type observer.type then
        some ⟨subject.observers.setValue INDEX observer.value⟩
      else none := by
  unfold setObserver.general
  rw [LENGTH_types, if_pos hi, List.getElem?_eq_getElem hi]

theorem setObserver.general_of_ge (assignable : Ty → Ty → Bool) (INDEX : Nat)
    (subject : Observable Ty Val) (observer : ObserverArg Ty Val)
    (hi : subject.observers.slots.length ≤ INDEX) :
    setObserver.general assignable INDEX subject observer = none := by
  unfold setObserver.general
  rw [LENGTH_types, if_neg (by omega)]

theorem setObserver_types (assignable : Ty → Ty → Bool) (INDEX : Nat)
    (subject subject1 : Observable Ty Val) (observer : ObserverArg Ty Val)
    (h : setObserver assignable INDEX subject observer = some subject1) :
    subject1.observers.types = subject.observers.types := by
  unfold setObserver at h
  split at h
  · cases h; rfl
  · unfold setObserver.general at h
    split at h
    · split at h
      · cases h
      · split at h
        · cases h
          exact ObserverList.setValue_types _ _ _
        · cases h
    · cases h

theorem setObserverCalls_types (assignable : Ty → Ty → Bool) :
    ∀ (calls : List (Nat × ObserverArg Ty Val)) (subject subject1 : Observable Ty Val),
      setObserverCalls assignable calls subject = some subject1 →
      subject1.observers.types = subject.observers.types := by
  intro calls
  induction calls with
  | nil =>
    intro subject subject1 h
    simp only [setObserverCalls, Option.some.injEq] at h
    rw [h]
  | cons c rest ih =>
    intro subject subject1 h
    obtain ⟨INDEX, observer⟩ := c
    simp only [setObserverCalls] at h
    cases hstep : setObserver assignable INDEX subject observer with
    | none => rw [hstep] at h; cases h
    | some subject2 =>
      rw [hstep] at h
      rw [ih subject2 subject1 h, setObserver_types assignable INDEX subject subject2 observer hstep]

theorem Element_eq_getElem? (TObservers : List Ty) :
    ∀ INDEX : Nat, TObservers.length < UNSIGNED_RANGE →
      Element INDEX TObservers = TObservers[INDEX]? := by
  induction TObservers with
  | nil => intro INDEX _; cases INDEX <;> simp [Element]
  | cons TFirst rest ih =>
    intro INDEX hfit
    cases INDEX with
    | zero => simp [Element]
    | succ n =>
      have hrest : rest.length < UNSIGNED_RANGE := by
        simp only [List.length_cons] at hfit; omega
      have hlen : LENGTH (TFirst :: rest) = rest.length + 1 := by
        simp only [LENGTH, List.length_cons]
        exact Nat.mod_eq_of_lt hfit
      simp only [Element, hlen, List.getElem?_cons_succ]
      by_cases hn : n + 1 < rest.length + 1
      · rw [if_pos hn]; exact ih n hrest
      · rw [if_neg hn]
        exact (List.getElem?_eq_none (by omega)).symm

/-- Whatever the handlers do, `NotifyObserver<INDEX>` on a tuple with a slot `INDEX`
runs: it makes the calls `INDEX, INDEX - 1, ..., j` for some `j` (with `j = 0` when it
returns normally), each on the observer the tuple held and with a fresh tag; the
tuple keeps its arity and slot types, a slot that was not called keeps its
content, and a slot that was called holds what its own handler left. -/
theorem NotifyObserver.body_total (handler : Handler Ty Val TagTy D W ε)
    (construct : TagTy → D) (TTag : TagTy) :
    ∀ (INDEX : Nat) (subject : ObserverList Ty Val) (world : W)
      (calls : List (Call Ty Val TagTy D)),
      INDEX < subject.slots.length →
      ∃ (subject1 : ObserverList Ty Val) (world1 : W) (new : List (Call Ty Val TagTy D))
        (how : Completion ε) (j : Nat),
        NotifyObserver.body handler construct INDEX TTag subject world calls =
          .ran ⟨.list subject1, world1, calls ++ new⟩ how ∧
        j ≤ INDEX ∧
        new.map Call.index = (List.range' j (INDEX + 1 - j)).reverse ∧
        (how = .normal → j = 0) ∧
        (∀ c ∈ new, subject.slots[c.index]? = some c.observer ∧
          c.tag = EventTag.fresh construct TTag ∧
          ∃ w, subject1.slots[c.index]? =
            some ⟨c.observer.type, (handler c.observer.type c.tag c.observer.value w).value⟩) ∧
        subject1.slots.length = subject.slots.length ∧
        subject1.types = subject.types ∧
        (∀ i, i < j ∨ INDEX < i → subject1.slots[i]? = subject.slots[i]?) := by
  intro INDEX
  induction INDEX with
  | zero =>
    intro subject world calls hlen
    have hs : subject.slots[0]? = some (subject.slots[0]) := List.getElem?_eq_getElem hlen
    generalize subject.slots[0] = s at hs
    refine ⟨subject.setValue 0 (handler s.type (EventTag.fresh construct TTag) s.value world).value,
      (handler s.type (EventTag.fresh construct TTag) s.value world).world,
      [⟨0, s, EventTag.fresh construct TTag⟩],
      (handler s.type (EventTag.fresh construct TTag) s.value world).how, 0, ?_, le_refl 0, ?_,
      fun _ => rfl, ?_, ?_, ?_, ?_⟩
    · rw [NotifyObserver.body, NotifyObserver.invoke_eq handler construct _ _ _ _ _ s hs]
    · simp
    · intro c hc
      rw [List.mem_singleton] at hc
      subst hc
      exact ⟨hs, rfl, world, ObserverList.setValue_getElem?_self _ _ _ s hs⟩
    · exact ObserverList.setValue_length _ _ _
    · exact ObserverList.setValue_types _ _ _
    · intro i hi
      exact ObserverList.setValue_getElem?_ne _ _ _ _ (by omega)
  | succ n ih =>
    intro subject world calls hlen
    have hs : subject.slots[n + 1]? = some (subject.slots[n + 1]) :=
      List.getElem?_eq_getElem hlen
    generalize subject.slots[n + 1] = s at hs
    cases hhow : (handler s.type (EventTag.fresh construct TTag) s.value world).how with
    | raised e =>
      refine ⟨subject.setValue (n + 1)
          (handler s.type (EventTag.fresh construct TTag) s.value world).value,
        (handler s.type (EventTag.fresh construct TTag) s.value world).world,
        [⟨n + 1, s, EventTag.fresh construct TTag⟩], .raised e, n + 1, ?_, le_refl _, ?_,
        (fun h => by cases h), ?_, ?_, ?_, ?_⟩
      · exact NotifyObserver.body_raised handler construct (n + 1) TTag subject world calls s e
          hs hhow
      · simp
      · intro c hc
        rw [List.mem_singleton] at hc
        subst hc
        exact ⟨hs, rfl, world, ObserverList.setValue_getElem?_self _ _ _ s hs⟩
      · exact ObserverList.setValue_length _ _ _
      · exact ObserverList.setValue_types _ _ _
      · intro i hi
        exact ObserverList.setValue_getElem?_ne _ _ _ _ (by omega)
    | normal =>
      have hstep := NotifyObserver.body_succ_normal handler construct n TTag subject world
        calls s hs hhow
      obtain ⟨subject1, world1, new, how, j, hrun, hj, hidx, hzero, hobs, hlen1, htypes,
          hframe⟩ :=
        ih (subject.setValue (n + 1)
              (handler s.type (EventTag.fresh construct TTag) s.value world).value)
          (handler s.type (EventTag.fresh construct TTag) s.value world).world
          (calls ++ [⟨n + 1, s, EventTag.fresh construct TTag⟩])
          (by rw [ObserverList.setValue_length]; omega)
      refine ⟨subject1, world1, ⟨n + 1, s, EventTag.fresh construct TTag⟩ :: new, how, j, ?_,
        by omega, ?_, hzero, ?_, ?_, ?_, ?_⟩
      · rw [hstep, hrun, List.append_assoc]
        rfl
      · rw [List.map_cons, hidx, show n + 1 + 1 - j = (n + 1 - j) + 1 by omega,
          List.range'_concat, List.reverse_append]
        simp
        omega
      · intro c hc
        rcases List.mem_cons.mp hc with rfl | hc
        · refine ⟨hs, rfl, world, ?_⟩
          rw [hframe (n + 1) (Or.inr (by omega))]
          exact ObserverList.setValue_getElem?_self _ _ _ s hs
        · have hmem : c.index ∈ new.map Call.index := List.mem_map_of_mem _ hc
          rw [hidx, List.mem_reverse, List.mem_range'_1] at hmem
          obtain ⟨h1, h2, h3⟩ := hobs c hc
          rw [ObserverList.setValue_getElem?_ne _ _ _ _ (by omega)] at h1
          exact ⟨h1, h2, h3⟩
      · rw [hlen1, ObserverList.setValue_length]
      · rw [htypes, ObserverList.setValue_types]
      · intro i hi
        rw [hframe i (by omega), ObserverList.setValue_getElem?_ne _ _ _ _ (by omega)]

theorem ObserverList.setValue_take (l : ObserverList Ty Val) (INDEX n : Nat) (v : Val)
    (h : n ≤ INDEX) : (l.setValue INDEX v).slots.take n = l.slots.take n := by
  apply List.ext_getElem?
  intro i
  rw [List.getElem?_take, List.getElem?_take]
  by_cases hi : i < n
  · rw [if_pos hi, if_pos hi, ObserverList.setValue_getElem?_ne _ _ _ _ (by omega)]
  · rw [if_neg hi, if_neg hi]

/-- When the handlers of the slots `0 .. INDEX` complete, `NotifyObserver<INDEX>`
returns normally and leaves the state `h0 (h1 (... hINDEX (world)))`, where `hi` is
the state transformer of slot `i`. -/
theorem NotifyObserver.body_world (handler : Handler Ty Val TagTy D W ε)
    (construct : TagTy → D) (TTag : TagTy) :
    ∀ (INDEX : Nat) (subject : ObserverList Ty Val) (world : W)
      (calls : List (Call Ty Val TagTy D)),
      INDEX < subject.slots.length →
      (∀ i s, i ≤ INDEX → subject.slots[i]? = some s →
        ∀ w, (handler s.type (EventTag.fresh construct TTag) s.value w).how = .normal) →
      ∃ (subject1 : ObserverList Ty Val) (calls1 : List (Call Ty Val TagTy D)),
        NotifyObserver.body handler construct INDEX TTag subject world calls =
          .ran ⟨.list subject1,
            (subject.slots.take (INDEX + 1)).foldr
              (NotifyObserver.transform handler construct TTag) world,
            calls1⟩ .normal := by
  intro INDEX
  induction INDEX with
  | zero =>
    intro subject world calls hlen hnormal
    have hs : subject.slots[0]? = some (subject.slots[0]) := List.getElem?_eq_getElem hlen
    generalize subject.slots[0] = s at hs
    refine ⟨subject.setValue 0
        (handler s.type (EventTag.fresh construct TTag) s.value world).value,
      calls ++ [⟨0, s, EventTag.fresh construct TTag⟩], ?_⟩
    rw [NotifyObserver.body_zero_normal handler construct TTag subject world calls s hs
      (hnormal 0 s (le_refl 0) hs world), List.take_succ, hs]
    rfl
  | succ n ih =>
    intro subject world calls hlen hnormal
    have hs : subject.slots[n + 1]? = some (subject.slots[n + 1]) :=
      List.getElem?_eq_getElem hlen
    generalize subject.slots[n + 1] = s at hs
    obtain ⟨subject1, calls1, hrun⟩ :=
      ih (subject.setValue (n + 1)
            (handler s.type (EventTag.fresh construct TTag) s.value world).value)
        (handler s.type (EventTag.fresh construct TTag) s.value world).world
        (calls ++ [⟨n + 1, s, EventTag.fresh construct TTag⟩])
        (by rw [ObserverList.setValue_length]; omega)
        (by
          intro i s1 hi hget w
          rw [ObserverList.setValue_getElem?_ne _ _ _ _ (by omega)] at hget
          exact hnormal i s1 (by omega) hget w)
    refine ⟨subject1, calls1, ?_⟩
    rw [NotifyObserver.body_succ_normal handler construct n TTag subject world calls s hs
      (hnormal (n + 1) s (le_refl _) hs world), hrun,
      ObserverList.setValue_take _ _ _ _ (le_refl _),
      List.take_succ (n := n + 1), hs, List.foldr_append]
    rfl

/-- The fold of the observed handlers is the fold of the handlers, together with
the log of the states in which they were entered: the handler of slot `i` is
entered in the state left by the handlers of the slots after `i`. -/
theorem foldr_transform_observing (handler : Handler Ty Val TagTy D W ε)
    (construct : TagTy → D) (TTag : TagTy) (world : W) (log : List W) :
    ∀ slots : List (Slot Ty Val),
      slots.foldr (NotifyObserver.transform (Handler.observing handler) construct TTag)
          (world, log) =
        (slots.foldr (NotifyObserver.transform handler construct TTag) world,
          log ++ (List.range slots.length).reverse.map fun i =>
            (slots.drop (i + 1)).foldr (NotifyObserver.transform handler construct TTag)
              world) := by
  intro slots
  induction slots with
  | nil => simp
  | cons s rest ih =>
    rw [List.foldr_cons, ih]
    simp only [NotifyObserver.transform, Handler.observing, List.foldr_cons, List.length_cons,
      List.range_succ_eq_map, List.reverse_cons, List.map_append, List.map_cons, List.map_nil,
      List.drop_succ_cons, List.drop_zero, List.append_assoc, List.map_reverse, List.map_map]
    rfl

theorem NotifyObserver.body_beyond_end (handler : Handler Ty Val TagTy D W ε)
    (construct : TagTy → D) (INDEX : Nat) (TTag : TagTy) (subject : ObserverList Ty Val)
    (world : W) (calls : List (Call Ty Val TagTy D)) (h : subject.slots.length ≤ INDEX) :
    NotifyObserver.body handler construct INDEX TTag subject world calls = .illFormed := by
  have hnone : subject.slots[INDEX]? = none := List.getElem?_eq_none h
  cases INDEX with
  | zero => simp only [NotifyObserver.body, NotifyObserver.invoke, hnone]
  | succ n => simp only [NotifyObserver.body, NotifyObserver.invoke, hnone]

theorem notify_congr_tag (handler : Handler Ty Val TagTy D W ε) (construct : TagTy → D)
    (subject : Subject Ty Val) (tag1 tag2 : EventTag TagTy D) (world : W)
    (h : tag1.type = tag2.type) :
    notify handler construct subject tag1 world = notify handler construct subject tag2 world := by
  unfold notify
  rw [h]

theorem Store.assign_ne {V : Type} (store : Store V) (loc loc1 : Nat) (v : V)
    (h : loc1 ≠ loc) : store.assign loc v loc1 = store loc1 := by
  simp only [Store.assign, if_neg h]

theorem Store.assign_self {V : Type} (store : Store V) (loc : Nat) (v : V) :
    store.assign loc v loc = v := by
  simp only [Store.assign, if_true]

theorem ObserverList.readSlot_assign_of_ne {V : Type} (store : Store V)
    (l : ObserverList Ty (TupleElement V)) (j loc : Nat) (v : V)
    (h : ∀ s, l.slots[j]? = some s → s.value ≠ .reference loc) :
    l.readSlot (store.assign loc v) j = l.readSlot store j := by
  unfold ObserverList.readSlot
  cases hj : l.slots[j]? with
  | none => rfl
  | some s =>
    have hs := h s hj
    simp only [Option.map_some']
    cases hval : s.value with
    | value v1 => rfl
    | reference loc1 =>
      have hne : loc1 ≠ loc := fun hl => hs (by rw [hval, hl])
      simp only [TupleElement.read, Store.assign_ne _ _ _ _ hne]

theorem ObserverList.readSlot_setValue_ne {V : Type} (store : Store V)
    (l : ObserverList Ty (TupleElement V)) (j k : Nat) (e : TupleElement V) (h : k ≠ j) :
    (l.setValue k e).readSlot store j = l.readSlot store j := by
  unfold ObserverList.readSlot
  rw [ObserverList.setValue_getElem?_ne _ _ _ _ h]

/-- Moving from the argument leaves every slot that the argument is not moved
out of reading what it read. -/
theorem ElementArg.moveOut_readSlot {V : Type} (movedFrom : Ty → V → V) (store : Store V)
    (subject : Observable Ty (TupleElement V)) (observer : ElementArg Ty V) (j : Nat)
    (h : ElementArg.movesFrom subject observer j = false) :
    (ElementArg.moveOut movedFrom store subject observer).2.observers.readSlot
        (ElementArg.moveOut movedFrom store subject observer).1 j =
      subject.observers.readSlot store j := by
  obtain ⟨T, cat, obj⟩ := observer
  cases cat with
  | lvalue => rfl
  | rvalue =>
    cases obj with
    | temporary v => rfl
    | object loc =>
      simp only [ElementArg.moveOut]
      apply ObserverList.readSlot_assign_of_ne
      intro s hs hval
      simp only [ElementArg.movesFrom, hs, Option.map_some', hval, decide_eq_false_iff_not,
        not_true_eq_false] at h
    | slot k =>
      simp only [ElementArg.moveOut]
      cases hk : (subject.observers.slots[k]?).map Slot.value with
      | none => rfl
      | some ek =>
        cases ek with
        | reference loc =>
          simp only
          apply ObserverList.readSlot_assign_of_ne
          intro s hs hval
          simp only [ElementArg.movesFrom, hs, Option.map_some', hval, hk,
            decide_eq_false_iff_not, not_true_eq_false] at h
        | value vk =>
          simp only
          apply ObserverList.readSlot_setValue_ne
          intro hkj
          subst hkj
          cases hs : subject.observers.slots[k]? with
          | none => rw [hs] at hk; cases hk
          | some s =>
            rw [hs, Option.map_some', Option.some.injEq] at hk
            simp only [ElementArg.movesFrom, hs, Option.map_some', hk, decide_True] at h
            cases h

theorem ElementArg.moveOut_length {V : Type} (movedFrom : Ty → V → V) (store : Store V)
    (subject : Observable Ty (TupleElement V)) (observer : ElementArg Ty V) :
    (ElementArg.moveOut movedFrom store subject observer).2.observers.slots.length =
      subject.observers.slots.length := by
  obtain ⟨T, cat, obj⟩ := observer
  cases cat with
  | lvalue => rfl
  | rvalue =>
    cases obj with
    | temporary v => rfl
    | object loc => rfl
    | slot k =>
      simp only [ElementArg.moveOut]
      cases hk : (subject.observers.slots[k]?).map Slot.value with
      | none => rfl
      | some ek =>
        cases ek with
        | reference loc => rfl
        | value vk => exact ObserverList.setValue_length _ _ _

theorem ElementArg.moveOut_types {V : Type} (movedFrom : Ty → V → V) (store : Store V)
    (subject : Observable Ty (TupleElement V)) (observer : ElementArg Ty V) :
    (ElementArg.moveOut movedFrom store subject observer).2.observers.types =
      subject.observers.types := by
  obtain ⟨T, cat, obj⟩ := observer
  cases cat with
  | lvalue => rfl
  | rvalue =>
    cases obj with
    | temporary v => rfl
    | object loc => rfl
    | slot k =>
      simp only [ElementArg.moveOut]
      cases hk : (subject.observers.slots[k]?).map Slot.value with
      | none => rfl
      | some ek =>
        cases ek with
        | reference loc => rfl
        | value vk => exact ObserverList.setValue_types _ _ _

/-- Moving from the argument rebinds no slot: a slot is as it was, or it holds
its own value before and after. -/
theorem ElementArg.moveOut_slot {V : Type} (movedFrom : Ty → V → V) (store : Store V)
    (subject : Observable Ty (TupleElement V)) (observer : ElementArg Ty V) (j : Nat) :
    (ElementArg.moveOut movedFrom store subject observer).2.observers.slots[j]? =
        subject.observers.slots[j]? ∨
      ∃ (T : Ty) (v v1 : V), subject.observers.slots[j]? = some (Slot.mk T (.value v)) ∧
        (ElementArg.moveOut movedFrom store subject observer).2.observers.slots[j]? =
          some (Slot.mk T (.value v1)) := by
  obtain ⟨T, cat, obj⟩ := observer
  cases cat with
  | lvalue => exact Or.inl rfl
  | rvalue =>
    cases obj with
    | temporary v => exact Or.inl rfl
    | object loc => exact Or.inl rfl
    | slot k =>
      simp only [ElementArg.moveOut]
      cases hk : (subject.observers.slots[k]?).map Slot.value with
      | none => exact Or.inl rfl
      | some ek =>
        cases ek with
        | reference loc => exact Or.inl rfl
        | value vk =>
          simp only
          by_cases hkj : k = j
          · subst hkj
            cases hs : subject.observers.slots[k]? with
            | none => rw [hs] at hk; cases hk
            | some s =>
              obtain ⟨Ts, es⟩ := s
              rw [hs, Option.map_some', Option.some.injEq] at hk
              simp only at hk
              subst hk
              exact Or.inr ⟨Ts, vk, movedFrom T vk, rfl,
                ObserverList.setValue_getElem?_self _ _ _ _ hs⟩
          · exact Or.inl (ObserverList.setValue_getElem?_ne _ _ _ _ hkj)

/-- On a slot that holds its own value, with a temporary as argument, the
assignment through the element is the assignment of `setObserver.general`; the
caller's objects are not touched. -/
theorem setObserver.onElements_of_value {V : Type} (assignable : Ty → Ty → Bool)
    (movedFrom : Ty → V → V) (INDEX : Nat) (store : Store V)
    (subject : Observable Ty (TupleElement V)) (U : Ty) (cat : ValueCategory) (v : V)
    (T : Ty) (v0 : V) (h : subject.observers.slots[INDEX]? = some ⟨T, .value v0⟩) :
    setObserver.onElements assignable movedFrom INDEX store subject ⟨U, cat, .temporary v⟩ =
      (setObserver.general assignable INDEX subject ⟨U, .value v, cat⟩).map
        fun o => (store, o) := by
  have hmove : ElementArg.moveOut movedFrom store subject ⟨U, cat, .temporary v⟩ =
      (store, subject) := by
    cases cat <;> rfl
  unfold setObserver.onElements setObserver.general
  by_cases hi : INDEX < LENGTH subject.observers.types
  · rw [if_pos hi, if_pos hi, h]
    by_cases ha : assignable T U = true
    · simp only [ha, if_true, Option.map_some', ElementArg.value, hmove]
    · simp only [ha, Option.map_none']
      rfl
  · rw [if_neg hi, if_neg hi]
    rfl

end Lemmas

/-! ## Dispatch on an observer list -/

section Claims

variable {Ty Val TagTy D W ε : Type}

/-- C1, order law: on an observer list with `k ≥ 1` slots whose handlers all
complete, `notify` returns normally, and the calls it made are, by slot index,
exactly `k-1, k-2, ..., 0`: `k` calls, each index once, every call on the
observer the list held at that index (so the observer declared last is notified
first and the one declared first last). -/
theorem notify_order_law (handler : Handler Ty Val TagTy D W ε) (construct : TagTy → D)
    (l : ObserverList Ty Val) (tag : EventTag TagTy D) (world : W)
    (hk : 1 ≤ l.slots.length)
    (hcomplete : ∀ s ∈ l.slots, ∀ w,
      (handler s.type (EventTag.fresh construct tag.type) s.value w).how = .normal) :
    ∃ st, notify handler construct (.list l) tag world = .ran st .normal ∧
      st.calls.map Call.index = (List.range l.slots.length).reverse ∧
      st.calls.length = l.slots.length ∧
      (∀ i, i < l.slots.length → (st.calls.map Call.index).count i = 1) ∧
      (∀ c ∈ st.calls, l.slots[c.index]? = some c.observer) := by
  obtain ⟨subject1, world1, new, hrun, hidx, hobs, hlen1, hagree⟩ :=
    NotifyObserver.body_descent handler construct tag.type 0 (l.slots.length - 1) l world []
      (by omega)
      (fun i s _ _ hget w => hcomplete s (List.getElem?_mem hget) w)
  have h0 : l.slots[0]? = some (l.slots[0]) := List.getElem?_eq_getElem (by omega)
  generalize l.slots[0] = s0 at h0
  have h01 : subject1.slots[0]? = some s0 := by rw [hagree 0 (le_refl 0), h0]
  have hn := hcomplete s0 (List.getElem?_mem h0) world1
  have hindex : (([] ++ new ++ [⟨0, s0, EventTag.fresh construct tag.type⟩] :
      List (Call Ty Val TagTy D)).map Call.index) = (List.range l.slots.length).reverse := by
    have hk1 : l.slots.length = (l.slots.length - 1) + 1 := by omega
    rw [List.nil_append, List.map_append, hidx, List.map_cons, List.map_nil]
    conv_rhs => rw [hk1, List.range_eq_range', List.range'_succ]
    simp
  have hfinal := NotifyObserver.body_zero_normal handler construct tag.type subject1 world1
    ([] ++ new) s0 h01 hn
  rw [← hrun, show 0 + (l.slots.length - 1) = l.slots.length - 1 by omega,
    ← notify_list_eq_body handler construct l tag world hk] at hfinal
  refine ⟨_, hfinal, hindex, ?_, ?_, ?_⟩
  · have := congrArg List.length hindex
    simpa using this
  · intro i hi
    show List.count i (List.map Call.index
      ([] ++ new ++ [⟨0, s0, EventTag.fresh construct tag.type⟩])) = 1
    rw [hindex]
    exact List.count_eq_one_of_mem (List.nodup_reverse.mpr (List.nodup_range _))
      (List.mem_reverse.mpr (List.mem_range.mpr hi))
  · intro c hc
    simp only [List.nil_append, List.mem_append, List.mem_singleton] at hc
    rcases hc with hc | rfl
    · exact (hobs c hc).1
    · exact h0

/-- Witness for C1: the recorders A, B, C, built in that order, are called in the
order 2, 1, 0 and the record they leave is `[C, B, A]`. -/
theorem notify_order_law_witness :
    1 ≤ Scenario.abc.slots.length ∧
    (∃ st, notify Scenario.handler Scenario.construct (.list Scenario.abc) Scenario.tag [] =
        .ran st .normal ∧
      st.calls.map Call.index = (List.range Scenario.abc.slots.length).reverse ∧
      st.calls.length = Scenario.abc.slots.length ∧
      (∀ i, i < Scenario.abc.slots.length → (st.calls.map Call.index).count i = 1) ∧
      (∀ c ∈ st.calls, Scenario.abc.slots[c.index]? = some c.observer)) ∧
    (∃ st, notify Scenario.handler Scenario.construct (.list Scenario.abc) Scenario.tag [] =
        .ran st .normal ∧
      st.calls.map Call.index = [2, 1, 0] ∧
      st.world = [Scenario.Ident.C, Scenario.Ident.B, Scenario.Ident.A]) :=
  ⟨by decide,
   notify_order_law Scenario.handler Scenario.construct Scenario.abc Scenario.tag [] (by decide)
     (by
       intro s hs w
       simp only [Scenario.abc, List.mem_cons, List.mem_singleton, List.not_mem_nil,
         or_false] at hs
       rcases hs with rfl | rfl | rfl <;> rfl),
   ⟨_, rfl, rfl, rfl⟩⟩

/-- C2, fail-fast law: on an observer list with `k ≥ 1` slots, if the handlers at
the indices `j+1 .. k-1` complete and the handler at index `j ≤ k-1` raises `e`,
then `notify` ends with that very `e` raised, and the calls it made are, by slot
index, exactly `k-1, ..., j`: no handler at an index below `j` is called. -/
theorem notify_fail_fast (handler : Handler Ty Val TagTy D W ε) (construct : TagTy → D)
    (l : ObserverList Ty Val) (tag : EventTag TagTy D) (world : W) (j : Nat) (e : ε)
    (hk : 1 ≤ l.slots.length) (hj : j ≤ l.slots.length - 1)
    (hcomplete : ∀ i s, j < i → l.slots[i]? = some s → ∀ w,
      (handler s.type (EventTag.fresh construct tag.type) s.value w).how = .normal)
    (hraise : ∀ s, l.slots[j]? = some s → ∀ w,
      (handler s.type (EventTag.fresh construct tag.type) s.value w).how = .raised e) :
    ∃ st, notify handler construct (.list l) tag world = .ran st (.raised e) ∧
      st.calls.map Call.index = (List.range' j (l.slots.length - j)).reverse ∧
      (∀ c ∈ st.calls, j ≤ c.index) ∧
      (∀ c ∈ st.calls, l.slots[c.index]? = some c.observer) := by
  obtain ⟨subject1, world1, new, hrun, hidx, hobs, hlen1, hagree⟩ :=
    NotifyObserver.body_descent handler construct tag.type j (l.slots.length - 1 - j) l world []
      (by omega)
      (fun i s hji _ hget w => hcomplete i s hji hget w)
  have hjs : l.slots[j]? = some (l.slots[j]) := List.getElem?_eq_getElem (by omega)
  generalize l.slots[j] = sj at hjs
  have hj1 : subject1.slots[j]? = some sj := by rw [hagree j (le_refl j), hjs]
  have hr := hraise sj hjs world1
  have hindex : (([] ++ new ++ [⟨j, sj, EventTag.fresh construct tag.type⟩] :
      List (Call Ty Val TagTy D)).map Call.index) =
        (List.range' j (l.slots.length - j)).reverse := by
    have hk1 : l.slots.length - j = (l.slots.length - 1 - j) + 1 := by omega
    rw [List.nil_append, List.map_append, hidx, List.map_cons, List.map_nil]
    conv_rhs => rw [hk1, List.range'_succ]
    simp
  have hfinal := NotifyObserver.body_raised handler construct j tag.type subject1 world1
    ([] ++ new) sj e hj1 hr
  rw [← hrun, show j + (l.slots.length - 1 - j) = l.slots.length - 1 by omega,
    ← notify_list_eq_body handler construct l tag world hk] at hfinal
  refine ⟨_, hfinal, hindex, ?_, ?_⟩
  · intro c hc
    have hmem : c.index ∈ ([] ++ new ++ [⟨j, sj, EventTag.fresh construct tag.type⟩] :
        List (Call Ty Val TagTy D)).map Call.index := List.mem_map_of_mem _ hc
    rw [hindex, List.mem_reverse, List.mem_range'_1] at hmem
    exact hmem.1
  · intro c hc
    simp only [List.nil_append, List.mem_append, List.mem_singleton] at hc
    rcases hc with hc | rfl
    · exact (hobs c hc).1
    · exact hjs

/-- Witness for C2: in the tuple A, B, C whose slot 1 throws, `notify` calls the
slots 2 and 1, raises what slot 1 raised, and only C has recorded itself. -/
theorem notify_fail_fast_witness :
    (1 ≤ Scenario.aTc.slots.length ∧ 1 ≤ Scenario.aTc.slots.length - 1) ∧
    (∃ st, notify Scenario.handler Scenario.construct (.list Scenario.aTc) Scenario.tag [] =
        .ran st (.raised Scenario.Ident.B) ∧
      st.calls.map Call.index = (List.range' 1 (Scenario.aTc.slots.length - 1)).reverse ∧
      (∀ c ∈ st.calls, 1 ≤ c.index) ∧
      (∀ c ∈ st.calls, Scenario.aTc.slots[c.index]? = some c.observer)) ∧
    (∃ st, notify Scenario.handler Scenario.construct (.list Scenario.aTc) Scenario.tag [] =
        .ran st (.raised Scenario.Ident.B) ∧
      st.calls.map Call.index = [2, 1] ∧ st.world = [Scenario.Ident.C]) :=
  ⟨⟨by decide, by decide⟩,
   notify_fail_fast Scenario.handler Scenario.construct Scenario.aTc Scenario.tag [] 1
     Scenario.Ident.B (by decide) (by decide)
     (by
       intro i s hi hget w
       match i, hi, hget with
       | 2, _, hget =>
         simp only [Scenario.aTc, List.getElem?_cons_succ, List.getElem?_cons_zero,
           Option.some.injEq] at hget
         subst hget
         rfl
       | i + 3, _, hget => simp [Scenario.aTc] at hget)
     (by
       intro s hget w
       simp only [Scenario.aTc, List.getElem?_cons_succ, List.getElem?_cons_zero,
         Option.some.injEq] at hget
       subst hget
       rfl),
   ⟨_, rfl, rfl, rfl⟩⟩

/-- C3: `notify` on the empty observer list and on an Observable without
observers returns normally for every event tag, makes no call to any handler, and
leaves the subject and the rest of the state as they were. -/
theorem notify_empty_noop (handler : Handler Ty Val TagTy D W ε) (construct : TagTy → D)
    (l : ObserverList Ty Val) (o : Observable Ty Val) (tag : EventTag TagTy D) (world : W)
    (hl : LENGTH l.types = 0) (ho : length o = 0) :
    notify handler construct (.list l) tag world = .ran ⟨.list l, world, []⟩ .normal ∧
    notify handler construct (.observable o) tag world =
      .ran ⟨.observable o, world, []⟩ .normal := by
  have h1 := ObserverList.slots_eq_nil_of_LENGTH l hl
  have h2 := ObserverList.slots_eq_nil_of_LENGTH o.observers ho
  constructor
  · simp only [notify, h1]
  · simp only [notify, h2]

/-- Witness for C3: the empty list and the Observable over it, in the scenario
of the recording observers. -/
theorem notify_empty_noop_witness :
    LENGTH (ObserverList.empty : ObserverList Scenario.ObsTy Scenario.Ident).types = 0 ∧
    length (⟨ObserverList.empty⟩ : Observable Scenario.ObsTy Scenario.Ident) = 0 ∧
    notify Scenario.handler Scenario.construct (.list ObserverList.empty) Scenario.tag [] =
      .ran ⟨.list ObserverList.empty, [], []⟩ .normal ∧
    notify Scenario.handler Scenario.construct (.observable ⟨ObserverList.empty⟩) Scenario.tag [] =
      .ran ⟨.observable ⟨ObserverList.empty⟩, [], []⟩ .normal :=
  ⟨by decide, by decide,
   notify_empty_noop Scenario.handler Scenario.construct ObserverList.empty
     ⟨ObserverList.empty⟩ Scenario.tag [] (by decide) (by decide)⟩

/-! ## Dispatch through the Observable -/

/-- C4, evaluated on the code: `notify` on the Observable built from the tuple
A, B, C is rejected at build time (its body hands the Observable itself to
`NotifyObserver`, whose parameter is a tuple), whereas `notify` on the tuple it
wraps makes the calls 2, 1, 0 and completes.  The two do not perform the same
dispatch. -/
theorem notify_observable_rejected :
    notify Scenario.handler Scenario.construct
        (.observable (Observable.fromList Scenario.abc)) Scenario.tag [] = .illFormed ∧
    ∃ st, notify Scenario.handler Scenario.construct
        (.list (Observable.fromList Scenario.abc).observers) Scenario.tag [] =
          .ran st .normal ∧
      st.calls.map Call.index = [2, 1, 0] :=
  ⟨rfl, _, rfl, rfl⟩

/-! ## length and setObserver -/

/-- C5: `length()` of an Observable with `k ≥ 0` observers is `k`, and after any
run of accepted `setObserver` calls it is still `k`: the slot count and the slot
types are those of the Observable before the calls. -/
theorem length_invariant (assignable : Ty → Ty → Bool) (subject : Observable Ty Val) :
    length subject = subject.observers.slots.length ∧
    ∀ (calls : List (Nat × ObserverArg Ty Val)) (subject1 : Observable Ty Val),
      setObserverCalls assignable calls subject = some subject1 →
        length subject1 = length subject ∧
        subject1.observers.slots.length = subject.observers.slots.length ∧
        subject1.observers.types = subject.observers.types := by
  refine ⟨LENGTH_types _, ?_⟩
  intro calls subject1 h
  have ht := setObserverCalls_types assignable calls subject subject1 h
  refine ⟨?_, ?_, ht⟩
  · unfold length; rw [ht]
  · have := congrArg List.length ht
    simpa [ObserverList.types] using this

/-- Witness for C5: two replacements on the Observable of A, B, C, and none on the
Observable without observers. -/
theorem length_invariant_witness :
    length (Observable.fromList Scenario.abc) = 3 ∧
    (∃ subject1, setObserverCalls Scenario.assignable
        [(0, ⟨.recorder, .X, .rvalue⟩), (2, ⟨.recorder, .X, .lvalue⟩)]
        (Observable.fromList Scenario.abc) = some subject1 ∧
      length subject1 = length (Observable.fromList Scenario.abc) ∧
      subject1.observers.slots.length = (Observable.fromList Scenario.abc).observers.slots.length ∧
      subject1.observers.types = (Observable.fromList Scenario.abc).observers.types) ∧
    length (⟨ObserverList.empty⟩ : Observable Scenario.ObsTy Scenario.Ident) = 0 :=
  ⟨by decide,
   ⟨_, rfl, (length_invariant Scenario.assignable (Observable.fromList Scenario.abc)).2
     [(0, ⟨.recorder, .X, .rvalue⟩), (2, ⟨.recorder, .X, .lvalue⟩)] _ rfl⟩,
   by decide⟩

/-- C6: on an Observable with `N ≥ 1` slots, for an index `i < N` and an argument
assignable to the type of slot `i`, `setObserver<i>` is accepted and afterwards
slot `i` holds the argument's value, at index `i` and with the slot type it had
before (no slot type changes). -/
theorem setObserver_replaces_slot (assignable : Ty → Ty → Bool) (INDEX : Nat)
    (subject : Observable Ty Val) (observer : ObserverArg Ty Val)
    (hi : INDEX < subject.observers.slots.length)
    (hassign : assignable (subject.observers.slots[INDEX]).type observer.type = true) :
    ∃ subject1, setObserver assignable INDEX subject observer = some subject1 ∧
      subject1.observers.slots[INDEX]? =
        some ⟨(subject.observers.slots[INDEX]).type, observer.value⟩ ∧
      subject1.observers.types = subject.observers.types ∧
      Element INDEX subject1.observers.types = some (subject.observers.slots[INDEX]).type := by
  have hset : setObserver assignable INDEX subject observer =
      some ⟨subject.observers.setValue INDEX observer.value⟩ := by
    rw [setObserver_of_nonempty assignable INDEX subject observer (by omega),
      setObserver.general_of_lt assignable INDEX subject observer hi, if_pos hassign]
  have hslot := ObserverList.setValue_getElem?_self subject.observers INDEX observer.value
    (subject.observers.slots[INDEX]) (List.getElem?_eq_getElem hi)
  refine ⟨_, hset, hslot, ObserverList.setValue_types _ _ _, ?_⟩
  rw [Element_eq_getElem? _ _ (by
    rw [ObserverList.types, List.length_map]
    exact (subject.observers.setValue INDEX observer.value).arity_fits)]
  simp only [ObserverList.types, List.getElem?_map, hslot, Option.map_some']

/-- Witness for C6: the recorder X replaces B in slot 1 of A, B, C. -/
theorem setObserver_replaces_slot_witness :
    1 < (Observable.fromList Scenario.abc).observers.slots.length ∧
    Scenario.assignable Scenario.ObsTy.recorder Scenario.ObsTy.recorder = true ∧
    ∃ subject1, setObserver Scenario.assignable 1 (Observable.fromList Scenario.abc)
        ⟨.recorder, .X, .rvalue⟩ = some subject1 ∧
      subject1.observers.slots[1]? = some ⟨.recorder, .X⟩ ∧
      subject1.observers.types = (Observable.fromList Scenario.abc).observers.types ∧
      Element 1 subject1.observers.types = some Scenario.ObsTy.recorder :=
  ⟨by decide, by decide,
   setObserver_replaces_slot Scenario.assignable 1 (Observable.fromList Scenario.abc)
     ⟨.recorder, .X, .rvalue⟩ (by decide) (by decide)⟩

/-- C7, evaluated on the code: after `setObserver<1>` has put the recorder X into
the Observable of A, B, C, `notify` on that Observable is rejected at build time,
so X's handler is not invoked at all; dispatching on the member `observers`
directly leaves the record `[C, X, A]`.  The defect is the one of C4. -/
theorem replacement_then_notify_rejected :
    ∃ subject1, setObserver Scenario.assignable 1 (Observable.fromList Scenario.abc)
        ⟨.recorder, .X, .rvalue⟩ = some subject1 ∧
      notify Scenario.handler Scenario.construct (.observable subject1) Scenario.tag [] =
        .illFormed ∧
      ∃ st, notify Scenario.handler Scenario.construct (.list subject1.observers)
          Scenario.tag [] = .ran st .normal ∧
        st.world = [Scenario.Ident.C, Scenario.Ident.X, Scenario.Ident.A] :=
  ⟨_, rfl, rfl, _, rfl, rfl⟩

/-- C8, evaluated on the code: on the Observable without observers, `setObserver<i>`
with a temporary as argument is rejected at build time for every index `i` (the
no-op overload takes `TObserver &`, so the call reaches the general overload and
its assertion `INDEX < LENGTH`); with a named variable it is the no-op, for every
index. -/
theorem setObserver_empty_temporary_rejected (assignable : Ty → Ty → Bool) (INDEX : Nat)
    (T : Ty) (v : Val) :
    setObserver assignable INDEX ⟨ObserverList.empty⟩ ⟨T, v, .rvalue⟩ = none ∧
    setObserver assignable INDEX ⟨ObserverList.empty⟩ ⟨T, v, .lvalue⟩ =
      some ⟨ObserverList.empty⟩ := by
  constructor
  · rfl
  · rfl

/-- C9: for an observer list with the slot types `T0, ..., T(N-1)` and any index
`i`, `Element<i>` is the `i`-th slot type when `i < N` and is rejected (yields no
type) when `i ≥ N`; in particular it yields a type if and only if `i < N`, and
never for the empty list. -/
theorem Element_lookup (l : ObserverList Ty Val) (INDEX : Nat) :
    Element INDEX l.types = l.types[INDEX]? ∧
    ((Element INDEX l.types).isSome = true ↔ INDEX < l.slots.length) ∧
    (l.slots.length ≤ INDEX → Element INDEX l.types = none) := by
  have hfit : l.types.length < UNSIGNED_RANGE := by
    rw [ObserverList.types, List.length_map]; exact l.arity_fits
  have hlen : l.types.length = l.slots.length := by
    rw [ObserverList.types, List.length_map]
  have h := Element_eq_getElem? l.types INDEX hfit
  refine ⟨h, ?_, ?_⟩
  · rw [h, ← hlen]
    constructor
    · intro hsome
      by_contra hge
      rw [List.getElem?_eq_none (by omega)] at hsome
      cases hsome
    · intro hlt
      rw [List.getElem?_eq_getElem hlt]
      rfl
  · intro hge
    rw [h]
    exact List.getElem?_eq_none (by omega)

/-- C10: on an Observable with `N ≥ 1` slots and for an argument assignable to the
slot it names, `setObserver<i>` is accepted if and only if `i < N`; for `i ≥ N` it
is rejected, whatever the argument, so there is no resulting Observable and no
slot is assigned. -/
theorem setObserver_accepted_iff (assignable : Ty → Ty → Bool) (INDEX : Nat)
    (subject : Observable Ty Val) (observer : ObserverArg Ty Val)
    (hN : 1 ≤ subject.observers.slots.length)
    (hassign : ∀ s, subject.observers.slots[INDEX]? = some s →
      assignable s.type observer.type = true) :
    ((setObserver assignable INDEX subject observer).isSome = true ↔
      INDEX < subject.observers.slots.length) ∧
    (subject.observers.slots.length ≤ INDEX →
      setObserver assignable INDEX subject observer = none) := by
  rw [setObserver_of_nonempty assignable INDEX subject observer hN]
  constructor
  · constructor
    · intro hsome
      by_contra hge
      rw [setObserver.general_of_ge assignable INDEX subject observer (by omega)] at hsome
      cases hsome
    · intro hlt
      rw [setObserver.general_of_lt assignable INDEX subject observer hlt,
        if_pos (hassign _ (List.getElem?_eq_getElem hlt))]
      rfl
  · intro hge
    exact setObserver.general_of_ge assignable INDEX subject observer hge

/-- Witness for C10: on the Observable of A, B, C, index 1 is accepted and index 3
is rejected. -/
theorem setObserver_accepted_iff_witness :
    1 ≤ (Observable.fromList Scenario.abc).observers.slots.length ∧
    (((setObserver Scenario.assignable 3 (Observable.fromList Scenario.abc)
        ⟨.recorder, .X, .lvalue⟩).isSome = true ↔
      3 < (Observable.fromList Scenario.abc).observers.slots.length) ∧
    ((Observable.fromList Scenario.abc).observers.slots.length ≤ 3 →
      setObserver Scenario.assignable 3 (Observable.fromList Scenario.abc)
        ⟨.recorder, .X, .lvalue⟩ = none)) ∧
    (setObserver Scenario.assignable 1 (Observable.fromList Scenario.abc)
        ⟨.recorder, .X, .lvalue⟩).isSome = true ∧
    setObserver Scenario.assignable 3 (Observable.fromList Scenario.abc)
        ⟨.recorder, .X, .lvalue⟩ = none :=
  ⟨by decide,
   setObserver_accepted_iff Scenario.assignable 3 (Observable.fromList Scenario.abc)
     ⟨.recorder, .X, .lvalue⟩ (by decide)
     (by intro s hget; simp [Observable.fromList, Scenario.abc] at hget),
   rfl, rfl⟩

/-! ## Frame of notify -/

/-- C12 as amended: an observer passed to `makeObserverList` as an lvalue (a named
variable) is borrowed: slot `i` of the returned tuple is an alias of the caller's
`i`-th observer, so an assignment through the slot is an assignment to the
variable and the slot reads whatever the variable holds.  An observer passed as
an rvalue is copied: slot `i` holds its own value, the one the object had at the
call. -/
theorem makeObserverList_borrows_lvalues {Val : Type} (store : Store Val)
    (observers : List ObjectArg) (i : Nat) (a : ObjectArg)
    (harg : observers[i]? = some a) :
    (a.category = .lvalue → IsAliasOf (makeObserverList store observers) i a.loc) ∧
    (a.category = .rvalue →
      (makeObserverList store observers)[i]? = some (.value (store a.loc))) := by
  have hget : (makeObserverList store observers)[i]? =
      some (match a.category with
        | .lvalue => .reference a.loc
        | .rvalue => .value (store a.loc)) := by
    simp only [makeObserverList, List.getElem?_map, harg, Option.map_some']
  constructor
  · intro hcat
    rw [hcat] at hget
    constructor
    · intro store1 v
      simp only [assignElement, hget, Option.map_some', Store.assign, if_true]
    · intro store1
      simp only [hget, Option.map_some', TupleElement.read]
  · intro hcat
    rw [hcat] at hget
    exact hget

/-- Witness for C12 as amended: a variable and a temporary passed together; slot 0
is an alias of the variable, slot 1 is a copy. -/
theorem makeObserverList_borrows_lvalues_witness :
    ([⟨0, .lvalue⟩, ⟨1, .rvalue⟩] : List ObjectArg)[0]? = some ⟨0, .lvalue⟩ ∧
    ([⟨0, .lvalue⟩, ⟨1, .rvalue⟩] : List ObjectArg)[1]? = some ⟨1, .rvalue⟩ ∧
    IsAliasOf (makeObserverList Scenario.store [⟨0, .lvalue⟩, ⟨1, .rvalue⟩]) 0 0 ∧
    (makeObserverList Scenario.store [⟨0, .lvalue⟩, ⟨1, .rvalue⟩])[1]? =
      some (.value Scenario.Ident.A) :=
  ⟨rfl, rfl,
   (makeObserverList_borrows_lvalues Scenario.store [⟨0, .lvalue⟩, ⟨1, .rvalue⟩] 0
     ⟨0, .lvalue⟩ rfl).1 rfl,
   (makeObserverList_borrows_lvalues Scenario.store [⟨0, .lvalue⟩, ⟨1, .rvalue⟩] 1
     ⟨1, .rvalue⟩ rfl).2 rfl⟩

/-- C12 as stated fails for an observer passed as an rvalue: after
`makeObserverList(std::move(x))` slot 0 is not an alias of `x`.  Assigning X through
the slot leaves `x` holding A, and after `x = X` the slot still reads A. -/
theorem makeObserverList_rvalue_not_alias :
    ¬ IsAliasOf (makeObserverList Scenario.store [⟨0, .rvalue⟩]) 0 0 ∧
    (assignElement Scenario.store (makeObserverList Scenario.store [⟨0, .rvalue⟩]) 0
      Scenario.Ident.X).map (fun r => r.1 0) = some Scenario.Ident.A ∧
    ((makeObserverList Scenario.store [⟨0, .rvalue⟩])[0]?).map
      (TupleElement.read (Store.assign Scenario.store 0 Scenario.Ident.X)) =
        some Scenario.Ident.A := by
  refine ⟨?_, rfl, rfl⟩
  intro h
  have h1 := h.1 Scenario.store Scenario.Ident.X
  have h2 : (assignElement Scenario.store (makeObserverList Scenario.store [⟨0, .rvalue⟩]) 0
      Scenario.Ident.X).map (fun r => r.1 0) = some Scenario.Ident.A := rfl
  rw [h2] at h1
  cases h1

/-! ## Sequencing, frame of setObserver, index range, tag -/

/-- C13: on an observer list with `k ≥ 1` slots whose handlers complete, dispatch
is sequential.  With `hi` the state transformer of slot `i`, `notify` leaves the
state `h0 (h1 (... h(k-1) (s)))`; and when each handler logs the state it is entered
with, the log lists, for the slots `k-1, ..., 0` in that order, the state left by
the handlers of the slots after it: the caller's state `s` for slot `k-1`, and for
slot `i` the state left by the handler of slot `i+1`. -/
theorem notify_sequential (handler : Handler Ty Val TagTy D W ε) (construct : TagTy → D)
    (l : ObserverList Ty Val) (tag : EventTag TagTy D) (world : W)
    (hk : 1 ≤ l.slots.length)
    (hcomplete : ∀ s ∈ l.slots, ∀ w,
      (handler s.type (EventTag.fresh construct tag.type) s.value w).how = .normal) :
    (∃ st, notify handler construct (.list l) tag world = .ran st .normal ∧
      st.world = l.slots.foldr (NotifyObserver.transform handler construct tag.type) world) ∧
    (∃ st, notify (Handler.observing handler) construct (.list l) tag (world, []) =
        .ran st .normal ∧
      st.world.1 = l.slots.foldr (NotifyObserver.transform handler construct tag.type) world ∧
      st.world.2 = (List.range l.slots.length).reverse.map fun i =>
        (l.slots.drop (i + 1)).foldr (NotifyObserver.transform handler construct tag.type)
          world) := by
  have htake : l.slots.take (l.slots.length - 1 + 1) = l.slots :=
    List.take_of_length_le (by omega)
  constructor
  · obtain ⟨subject1, calls1, hrun⟩ :=
      NotifyObserver.body_world handler construct tag.type (l.slots.length - 1) l world []
        (by omega) (fun i s _ hget w => hcomplete s (List.getElem?_mem hget) w)
    rw [htake, ← notify_list_eq_body handler construct l tag world hk] at hrun
    exact ⟨_, hrun, rfl⟩
  · obtain ⟨subject1, calls1, hrun⟩ :=
      NotifyObserver.body_world (Handler.observing handler) construct tag.type
        (l.slots.length - 1) l (world, []) [] (by omega)
        (fun i s _ hget w => hcomplete s (List.getElem?_mem hget) w.1)
    rw [htake, ← notify_list_eq_body (Handler.observing handler) construct l tag (world, []) hk,
      foldr_transform_observing handler construct tag.type world [] l.slots] at hrun
    exact ⟨_, hrun, rfl, by simp⟩

/-- Witness for C13: for the recorders A, B, C the final record is
`hA (hB (hC []))`, that is `[C, B, A]`, and the states the handlers were entered
with are `[]` for C, `[C]` for B and `[C, B]` for A. -/
theorem notify_sequential_witness :
    1 ≤ Scenario.abc.slots.length ∧
    ((∃ st, notify Scenario.handler Scenario.construct (.list Scenario.abc) Scenario.tag [] =
        .ran st .normal ∧
      st.world = Scenario.abc.slots.foldr
        (NotifyObserver.transform Scenario.handler Scenario.construct Scenario.tag.type) []) ∧
    (∃ st, notify (Handler.observing Scenario.handler) Scenario.construct (.list Scenario.abc)
        Scenario.tag ([], []) = .ran st .normal ∧
      st.world.1 = Scenario.abc.slots.foldr
        (NotifyObserver.transform Scenario.handler Scenario.construct Scenario.tag.type) [] ∧
      st.world.2 = (List.range Scenario.abc.slots.length).reverse.map fun i =>
        (Scenario.abc.slots.drop (i + 1)).foldr
          (NotifyObserver.transform Scenario.handler Scenario.construct Scenario.tag.type)
          [])) ∧
    (∃ st, notify (Handler.observing Scenario.handler) Scenario.construct (.list Scenario.abc)
        Scenario.tag ([], []) = .ran st .normal ∧
      st.world.1 = [Scenario.Ident.C, Scenario.Ident.B, Scenario.Ident.A] ∧
      st.world.2 = [[], [Scenario.Ident.C], [Scenario.Ident.C, Scenario.Ident.B]]) :=
  ⟨by decide,
   notify_sequential Scenario.handler Scenario.construct Scenario.abc Scenario.tag []
     (by decide)
     (by
       intro s hs w
       simp only [Scenario.abc, List.mem_cons, List.mem_singleton, List.not_mem_nil,
         or_false] at hs
       rcases hs with rfl | rfl | rfl <;> rfl),
   ⟨_, rfl, rfl, rfl⟩⟩

/-- C15: on an observer list with `N ≥ 1` slots the start index `LENGTH - 1`, computed
in `unsigned`, is `N - 1`; every `unsigned` decrement on the way down is the
predecessor (no wrap); `notify` is never rejected for a `std::get` beyond the end,
whatever the handlers do; the slots it reads are `N-1, N-2, ..., j`, all below `N`,
with `j = 0` (the base case) when it returns normally.  For `N = 0` the no-op
overloads run, on the tuple and on the Observable; the start index `0 - 1`, which
is `2^32 - 1` in `unsigned`, is not used (with it `NotifyObserver` would be
rejected). -/
theorem notify_index_in_range (handler : Handler Ty Val TagTy D W ε) (construct : TagTy → D)
    (l : ObserverList Ty Val) (tag : EventTag TagTy D) (world : W)
    (hk : 1 ≤ l.slots.length) :
    (usub (LENGTH l.types) 1 = l.slots.length - 1 ∧
      (∀ INDEX, INDEX + 1 ≤ l.slots.length - 1 → usub (INDEX + 1) 1 = INDEX) ∧
      ∃ st how j, notify handler construct (.list l) tag world = .ran st how ∧
        st.calls.map Call.index = (List.range' j (l.slots.length - j)).reverse ∧
        (how = .normal → j = 0) ∧
        (∀ c ∈ st.calls, c.index < l.slots.length)) ∧
    (LENGTH (ObserverList.empty : ObserverList Ty Val).types = 0 ∧
      usub 0 1 = UNSIGNED_RANGE - 1 ∧
      notify handler construct (.list ObserverList.empty) tag world =
        .ran ⟨.list ObserverList.empty, world, []⟩ .normal ∧
      notify handler construct (.observable ⟨ObserverList.empty⟩) tag world =
        .ran ⟨.observable ⟨ObserverList.empty⟩, world, []⟩ .normal ∧
      NotifyObserver handler construct (usub 0 1) tag.type
        ⟨.list ObserverList.empty, world, []⟩ = .illFormed) := by
  have hfit := l.arity_fits
  refine ⟨⟨usub_LENGTH_one l hk, ?_, ?_⟩, rfl, by decide, rfl, rfl, ?_⟩
  · intro INDEX hI
    exact usub_succ_one INDEX (by omega)
  · obtain ⟨subject1, world1, new, how, j, hbody, hj, hidx, hzero, _, _, _, _⟩ :=
      NotifyObserver.body_total handler construct tag.type (l.slots.length - 1) l world []
        (by omega)
    rw [← notify_list_eq_body handler construct l tag world hk] at hbody
    have hidx1 : ([] ++ new).map Call.index = (List.range' j (l.slots.length - j)).reverse := by
      rw [List.nil_append, hidx, show l.slots.length - 1 + 1 - j = l.slots.length - j by omega]
    refine ⟨_, how, j, hbody, hidx1, hzero, ?_⟩
    intro c hc
    have hmem : c.index ∈ ([] ++ new).map Call.index := List.mem_map_of_mem _ hc
    rw [hidx1, List.mem_reverse, List.mem_range'_1] at hmem
    omega
  · simp only [NotifyObserver, NotifyObserver.deduce]
    exact NotifyObserver.body_beyond_end handler construct _ _ _ _ _ (Nat.zero_le _)

/-- Witness for C15: the tuple A, B, C whose slot 1 throws reads the slots 2 and 1;
the start index is 2. -/
theorem notify_index_in_range_witness :
    1 ≤ Scenario.aTc.slots.length ∧
    usub (LENGTH Scenario.aTc.types) 1 = Scenario.aTc.slots.length - 1 ∧
    (∀ INDEX, INDEX + 1 ≤ Scenario.aTc.slots.length - 1 → usub (INDEX + 1) 1 = INDEX) ∧
    (∃ st how j, notify Scenario.handler Scenario.construct (.list Scenario.aTc)
        Scenario.tag [] = .ran st how ∧
      st.calls.map Call.index = (List.range' j (Scenario.aTc.slots.length - j)).reverse ∧
      (how = .normal → j = 0) ∧
      (∀ c ∈ st.calls, c.index < Scenario.aTc.slots.length)) ∧
    (∃ st, notify Scenario.handler Scenario.construct (.list Scenario.aTc) Scenario.tag [] =
        .ran st (.raised Scenario.Ident.B) ∧
      st.calls.map Call.index = [2, 1]) :=
  ⟨by decide,
   (notify_index_in_range Scenario.handler Scenario.construct Scenario.aTc Scenario.tag []
     (by decide)).1.1,
   (notify_index_in_range Scenario.handler Scenario.construct Scenario.aTc Scenario.tag []
     (by decide)).1.2.1,
   (notify_index_in_range Scenario.handler Scenario.construct Scenario.aTc Scenario.tag []
     (by decide)).1.2.2,
   ⟨_, rfl, rfl⟩⟩

/-- C16: `notify` uses the type of the tag it is given and nothing else of it: for
two tag objects of the same tag type, `notify` on the same subject in the same
state has the same result (the same calls in the same order, the same final
state, the same completion or failure), and every handler call it makes is
given the freshly constructed tag of that type. -/
theorem notify_tag_kind_only (handler : Handler Ty Val TagTy D W ε) (construct : TagTy → D)
    (subject : Subject Ty Val) (tag1 tag2 : EventTag TagTy D) (world : W)
    (htype : tag1.type = tag2.type) :
    notify handler construct subject tag1 world = notify handler construct subject tag2 world ∧
    ∀ st how, notify handler construct subject tag1 world = .ran st how →
      ∀ c ∈ st.calls, c.tag = EventTag.fresh construct tag1.type := by
  refine ⟨notify_congr_tag handler construct subject tag1 tag2 world htype, ?_⟩
  intro st how hrun c hc
  cases subject with
  | list l =>
    by_cases hk : 1 ≤ l.slots.length
    · rw [notify_list_eq_body handler construct l tag1 world hk] at hrun
      obtain ⟨subject1, world1, new, how1, j, hbody, _, _, _, hobs, _, _, _⟩ :=
        NotifyObserver.body_total handler construct tag1.type (l.slots.length - 1) l world []
          (by omega)
      rw [hbody] at hrun
      cases hrun
      exact (hobs c (by simpa using hc)).2.1
    · have hnil : l.slots = [] := List.length_eq_zero.mp (by omega)
      simp only [notify, hnil] at hrun
      cases hrun
      cases hc
  | observable o =>
    by_cases hk : 1 ≤ o.observers.slots.length
    · rw [notify_observable_illFormed handler construct o tag1 world hk] at hrun
      cases hrun
    · have hnil : o.observers.slots = [] := List.length_eq_zero.mp (by omega)
      simp only [notify, hnil] at hrun
      cases hrun
      cases hc

/-- Witness for C16: handlers that would throw on a tag holding anything but `0`
are dispatched to with two tags holding 5 and 9; both dispatches record
`[C, B, A]`, because the handlers are given the freshly constructed tag. -/
theorem notify_tag_kind_only_witness :
    (⟨(), 5⟩ : EventTag Unit Nat).type = (⟨(), 9⟩ : EventTag Unit Nat).type ∧
    (notify Scenario.tagReader Scenario.constructZero (.list Scenario.abc) ⟨(), 5⟩ [] =
        notify Scenario.tagReader Scenario.constructZero (.list Scenario.abc) ⟨(), 9⟩ [] ∧
      ∀ st how, notify Scenario.tagReader Scenario.constructZero (.list Scenario.abc)
          ⟨(), 5⟩ [] = .ran st how →
        ∀ c ∈ st.calls, c.tag = EventTag.fresh Scenario.constructZero ()) ∧
    (∃ st, notify Scenario.tagReader Scenario.constructZero (.list Scenario.abc) ⟨(), 5⟩ [] =
        .ran st .normal ∧
      st.world = [Scenario.Ident.C, Scenario.Ident.B, Scenario.Ident.A]) :=
  ⟨rfl,
   notify_tag_kind_only Scenario.tagReader Scenario.constructZero (.list Scenario.abc)
     ⟨(), 5⟩ ⟨(), 9⟩ [] rfl,
   ⟨_, rfl, rfl⟩⟩

/-! ## Frames with reference slots -/

/-- C14 as amended: on an Observable with `N ≥ 1` slots, for `i < N` and an argument
with value `v` assignable to slot `i`, `setObserver<i>` is accepted and keeps the number
of slots and the slot types; every slot `j ≠ i` that does not refer to the object
slot `i` refers to, and whose object the argument is not moved out of, reads
exactly the value it read before; a slot `j ≠ i` that refers to the same object as
slot `i` reads `v`. -/
theorem setObserver_frame_elements {V : Type} (assignable : Ty → Ty → Bool)
    (movedFrom : Ty → V → V) (INDEX : Nat) (store : Store V)
    (subject : Observable Ty (TupleElement V)) (observer : ElementArg Ty V) (v : V)
    (hi : INDEX < subject.observers.slots.length)
    (hassign : assignable (subject.observers.slots[INDEX]).type observer.type = true)
    (hvalue : ElementArg.value store subject observer = some v) :
    ∃ store1 subject1,
      setObserver.onElements assignable movedFrom INDEX store subject observer =
        some (store1, subject1) ∧
      subject1.observers.slots.length = subject.observers.slots.length ∧
      subject1.observers.types = subject.observers.types ∧
      (∀ j s, j ≠ INDEX → subject.observers.slots[j]? = some s →
        (s.value.sharesObject (subject.observers.slots[INDEX]).value = false →
          ElementArg.movesFrom subject observer j = false →
          subject1.observers.readSlot store1 j = subject.observers.readSlot store j) ∧
        (s.value.sharesObject (subject.observers.slots[INDEX]).value = true →
          subject1.observers.readSlot store1 j = some v)) := by
  have hget : subject.observers.slots[INDEX]? = some (subject.observers.slots[INDEX]) :=
    List.getElem?_eq_getElem hi
  generalize subject.observers.slots[INDEX] = si at hget hassign
  obtain ⟨T, e⟩ := si
  cases e with
  | reference loc =>
    refine ⟨(ElementArg.moveOut movedFrom store subject observer).1.assign loc v,
      (ElementArg.moveOut movedFrom store subject observer).2, ?_,
      ElementArg.moveOut_length _ _ _ _, ElementArg.moveOut_types _ _ _ _, ?_⟩
    · simp only [setObserver.onElements, LENGTH_types, if_pos hi, hget, hassign, if_true,
        hvalue]
    · intro j s _ hj
      constructor
      · intro hshare hmove
        rw [ObserverList.readSlot_assign_of_ne, ElementArg.moveOut_readSlot _ _ _ _ _ hmove]
        intro s1 hs1 hval
        rcases ElementArg.moveOut_slot movedFrom store subject observer j with hsame | hown
        · rw [hsame, hj, Option.some.injEq] at hs1
          subst hs1
          rw [hval] at hshare
          simp [TupleElement.sharesObject] at hshare
        · obtain ⟨T1, v0, v1, _, hafter⟩ := hown
          rw [hafter, Option.some.injEq] at hs1
          subst hs1
          cases hval
      · intro hshare
        cases hval : s.value with
        | value v0 => rw [hval] at hshare; simp [TupleElement.sharesObject] at hshare
        | reference loc1 =>
          rw [hval] at hshare
          simp only [TupleElement.sharesObject, decide_eq_true_eq] at hshare
          subst hshare
          have hafter : (ElementArg.moveOut movedFrom store subject observer).2.observers.slots[j]?
              = some s := by
            rcases ElementArg.moveOut_slot movedFrom store subject observer j with hsame | hown
            · rw [hsame, hj]
            · obtain ⟨T1, v0, v1, hbefore, _⟩ := hown
              rw [hj, Option.some.injEq] at hbefore
              rw [hbefore] at hval
              cases hval
          simp only [ObserverList.readSlot, hafter, Option.map_some', hval, TupleElement.read,
            Store.assign_self]
  | value v0 =>
    refine ⟨(ElementArg.moveOut movedFrom store subject observer).1,
      ⟨(ElementArg.moveOut movedFrom store subject observer).2.observers.setValue INDEX
        (.value v)⟩, ?_, ?_, ?_, ?_⟩
    · simp only [setObserver.onElements, LENGTH_types, if_pos hi, hget, hassign, if_true,
        hvalue]
    · rw [ObserverList.setValue_length]
      exact ElementArg.moveOut_length _ _ _ _
    · rw [ObserverList.setValue_types]
      exact ElementArg.moveOut_types _ _ _ _
    · intro j s hne hj
      constructor
      · intro _ hmove
        rw [ObserverList.readSlot_setValue_ne _ _ _ _ _ (fun h => hne h.symm),
          ElementArg.moveOut_readSlot _ _ _ _ _ hmove]
      · intro hshare
        cases hval : s.value <;> rw [hval] at hshare <;>
          simp [TupleElement.sharesObject] at hshare

/-- Witness for C14 as amended: in `makeObserverList(a, B(), c)` wrapped in an Observable,
`setObserver<0>(X())` assigns to `a`; slots 1 and 2 read what they read before. -/
theorem setObserver_frame_elements_witness :
    0 < (Observable.fromList Scenario.aBc).observers.slots.length ∧
    Scenario.assignable Scenario.ObsTy.recorder Scenario.ObsTy.recorder = true ∧
    ElementArg.value Scenario.store (Observable.fromList Scenario.aBc)
      ⟨.recorder, .rvalue, .temporary .X⟩ = some Scenario.Ident.X ∧
    (∃ store1 subject1,
      setObserver.onElements Scenario.assignable Scenario.movedFrom 0 Scenario.store
        (Observable.fromList Scenario.aBc) ⟨.recorder, .rvalue, .temporary .X⟩ =
          some (store1, subject1) ∧
      subject1.observers.slots.length =
        (Observable.fromList Scenario.aBc).observers.slots.length ∧
      subject1.observers.types = (Observable.fromList Scenario.aBc).observers.types ∧
      (∀ j s, j ≠ 0 → (Observable.fromList Scenario.aBc).observers.slots[j]? = some s →
        (s.value.sharesObject (TupleElement.reference 0) = false →
          ElementArg.movesFrom (Observable.fromList Scenario.aBc)
            ⟨.recorder, .rvalue, .temporary .X⟩ j = false →
          subject1.observers.readSlot store1 j =
            (Observable.fromList Scenario.aBc).observers.readSlot Scenario.store j) ∧
        (s.value.sharesObject (TupleElement.reference 0) = true →
          subject1.observers.readSlot store1 j = some Scenario.Ident.X))) ∧
    (∃ r, setObserver.onElements Scenario.assignable Scenario.movedFrom 0 Scenario.store
        (Observable.fromList Scenario.aBc) ⟨.recorder, .rvalue, .temporary .X⟩ = some r ∧
      r.2.observers.readSlot r.1 0 = some Scenario.Ident.X ∧
      r.2.observers.readSlot r.1 1 = some Scenario.Ident.A ∧
      r.2.observers.readSlot r.1 2 = some Scenario.Ident.A) :=
  ⟨by decide, by decide, rfl,
   setObserver_frame_elements Scenario.assignable Scenario.movedFrom 0 Scenario.store
     (Observable.fromList Scenario.aBc) ⟨.recorder, .rvalue, .temporary .X⟩ Scenario.Ident.X
     (by decide) (by decide) rfl,
   ⟨_, rfl, rfl, rfl, rfl⟩⟩

/-- C14 as stated fails in two ways.  On the Observable over `makeObserverList(a, a)`,
whose slots 0 and 1 refer to one object, `setObserver<0>(X())` assigns to `a`, so slot 1,
which read A before the call, reads X afterwards.  On the Observable over
`makeObserverList(a, B(), c)`, `setObserver<0>` with `std::move` of the object of slot 1 as
argument leaves slot 1 moved from: it read A before and reads X afterwards. -/
theorem setObserver_changes_other_slot :
    (∃ r, setObserver.onElements Scenario.assignable Scenario.movedFrom 0 Scenario.store
        (Observable.fromList Scenario.aa) ⟨.recorder, .rvalue, .temporary .X⟩ = some r ∧
      (Observable.fromList Scenario.aa).observers.readSlot Scenario.store 1 =
        some Scenario.Ident.A ∧
      r.2.observers.readSlot r.1 1 = some Scenario.Ident.X) ∧
    (∃ r, setObserver.onElements Scenario.assignable Scenario.movedFrom 0 Scenario.store
        (Observable.fromList Scenario.aBc) ⟨.recorder, .rvalue, .slot 1⟩ = some r ∧
      (Observable.fromList Scenario.aBc).observers.readSlot Scenario.store 1 =
        some Scenario.Ident.A ∧
      r.2.observers.readSlot r.1 1 = some Scenario.Ident.X) :=
  ⟨⟨_, rfl, rfl, rfl⟩, ⟨_, rfl, rfl, rfl⟩⟩

end Claims

end seqan
